import Mathlib

/-
Verification development for the SavantPrimitives core:
shallow embeddings of the pipeline state manager (pipeline.rs),
the match-query collection operators and serialization (match_query.rs),
the persistent FIFO (savant_pq/src/lib.rs) and the etcd parameter
storage (parameter_storage.rs), with theorems settling the spec claims.

Machine integers: the Rust code uses i64 / u128 indices; none of the
verified operations can overflow them on the inputs considered, so ids
are modelled as Int and queue indices as Nat.  Hash maps are modelled
as association lists with unique keys; a mutating method on `&mut self`
is modelled as a function returning the result together with the final
state, so that states mutated before an error are represented faithfully.
-/

namespace Savant

/-! # Definitions -/

/-- Association-list lookup, modelling `HashMap::get`. -/
def alookup {K V : Type} [DecidableEq K] (k : K) : List (K × V) → Option V
  | [] => none
  | (k1, v) :: t => if k1 = k then some v else alookup k t

/-- Association-list insert-or-replace, modelling `HashMap::insert`. -/
def aput {K V : Type} [DecidableEq K] (k : K) (v : V) : List (K × V) → List (K × V)
  | [] => [(k, v)]
  | (k1, v1) :: t => if k1 = k then (k, v) :: t else (k1, v1) :: aput k v t

/-- Association-list removal of the first binding of `k`, modelling `HashMap::remove`. -/
def aerase {K V : Type} [DecidableEq K] (k : K) : List (K × V) → List (K × V)
  | [] => []
  | (k1, v1) :: t => if k1 = k then t else (k1, v1) :: aerase k t

/-! ## Persistent FIFO (savant_pq/src/lib.rs)

The RocksDB key space is modelled as an association list from `Nat`
(u128 cell index) to byte vectors (`List Nat`); the two reserved cells
WRITE_INDEX_CELL / READ_INDEX_CELL are modelled as the separate fields
`wcell` / `rcell`, since their u128 keys (2^128 - 1 and 2^128 - 2) never
collide with data keys, which stay below MAX_ALLOWED_INDEX.
`maxAllowedIndex` is the `MAX_ALLOWED_INDEX` constant (4 under cfg(test),
2^128 - 2 otherwise); it is passed as a parameter. -/

structure PersistentQueue where
  db : List (Nat × List Nat)
  wcell : Option Nat
  rcell : Option Nat
  write_index : Nat
  read_index : Nat
  max_elements : Nat
deriving DecidableEq, Repr

namespace PersistentQueue

/-- `PersistentQueue::new` on a fresh path: absent index cells default to 0. -/
def fresh (maxElements : Nat) : PersistentQueue :=
  { db := [], wcell := none, rcell := none,
    write_index := 0, read_index := 0, max_elements := maxElements }

/-- `PersistentQueue::len`. -/
def len (maxAllowedIndex : Nat) (q : PersistentQueue) : Nat :=
  if q.write_index ≥ q.read_index then q.write_index - q.read_index
  else maxAllowedIndex - q.read_index + q.write_index

/-- `PersistentQueue::is_empty`. -/
def is_empty (q : PersistentQueue) : Bool :=
  q.write_index == q.read_index

/-- The length formula the spec states for the queue:
`(write_index - read_index) mod MAX_ALLOWED_INDEX`. -/
def modLen (maxAllowedIndex : Nat) (q : PersistentQueue) : Nat :=
  (maxAllowedIndex + q.write_index - q.read_index) % maxAllowedIndex

/-- `PersistentQueue::push`: guard `write_index >= read_index + max_elements`,
then one atomic batch writing the data cell and the advanced WRITE_INDEX. -/
def push (maxAllowedIndex : Nat) (q : PersistentQueue) (value : List Nat) :
    Except String Unit × PersistentQueue :=
  if q.write_index ≥ q.read_index + q.max_elements then
    (Except.error "Queue is full", q)
  else
    let db1 := aput q.write_index value q.db
    let w1 := q.write_index + 1
    let w2 := if w1 = maxAllowedIndex then 0 else w1
    (Except.ok (), { q with db := db1, write_index := w2, wcell := some w2 })

/-- `PersistentQueue::pop`: `None` when `read_index == write_index`; otherwise
read the data cell, then delete it and advance READ_INDEX in one atomic batch. -/
def pop (maxAllowedIndex : Nat) (q : PersistentQueue) :
    Except String (Option (List Nat)) × PersistentQueue :=
  if q.read_index = q.write_index then (Except.ok none, q)
  else
    match alookup q.read_index q.db with
    | some v =>
        let db1 := aerase q.read_index q.db
        let r1 := q.read_index + 1
        let r2 := if r1 = maxAllowedIndex then 0 else r1
        (Except.ok (some v), { q with db := db1, read_index := r2, rcell := some r2 })
    | none => (Except.ok none, q)

end PersistentQueue

/-- A push or pop request, for running concrete traces against the queue. -/
inductive QueueOp where
  | push (v : List Nat)
  | pop
deriving DecidableEq, Repr

/-- Outcome of one trace step. -/
inductive QueueOpResult where
  | pushOk
  | pushErr (e : String)
  | popped (v : Option (List Nat))
deriving DecidableEq, Repr

/-- Runs a list of queue operations, collecting each outcome. -/
def runQueueOps (maxAllowedIndex : Nat) :
    PersistentQueue → List QueueOp → PersistentQueue × List QueueOpResult
  | q, [] => (q, [])
  | q, QueueOp.push v :: t =>
      match PersistentQueue.push maxAllowedIndex q v with
      | (Except.ok _, q1) =>
          let r := runQueueOps maxAllowedIndex q1 t
          (r.1, QueueOpResult.pushOk :: r.2)
      | (Except.error e, q1) =>
          let r := runQueueOps maxAllowedIndex q1 t
          (r.1, QueueOpResult.pushErr e :: r.2)
  | q, QueueOp.pop :: t =>
      match PersistentQueue.pop maxAllowedIndex q with
      | (_, q1) =>
          let r := runQueueOps maxAllowedIndex q1 t
          (r.1, QueueOpResult.popped ((PersistentQueue.pop maxAllowedIndex q).1.toOption.join) :: r.2)

/-- Trace reaching a wrapped state (write index below read index) with the
test configuration MAX_ALLOWED_INDEX = 4 and max_elements = 3. -/
def c3Trace : List QueueOp :=
  [QueueOp.push [1], QueueOp.push [2], QueueOp.pop, QueueOp.pop,
   QueueOp.push [3], QueueOp.push [4], QueueOp.push [5]]

/-- The state reached by `c3Trace` from a fresh queue. -/
def c3State : PersistentQueue :=
  (runQueueOps 4 (PersistentQueue.fresh 3) c3Trace).1

/-- Interleaving of six pushes and three pops for claim C6. -/
def c6Trace : List QueueOp :=
  [QueueOp.push [1], QueueOp.push [2], QueueOp.pop, QueueOp.pop,
   QueueOp.push [3], QueueOp.push [4], QueueOp.push [5], QueueOp.push [6],
   QueueOp.pop]

/-! ## Pipeline state manager (pipeline.rs)

`VideoFrameProxy` and `VideoFrameUpdate` are opaque to pipeline.rs, so they
are type parameters `F` and `U`; `VideoFrameUpdate` application
(`VideoFrameProxy::update`, not under src/) is an abstract fallible
function `upd : F → U → Except String F`.  `VideoFrameBatch` is modelled
from the spec: an ordered mapping frame_id → frame (its `new`/`add`/`get`
and `frames` are the association-list empty/insert/lookup/contents). -/

/-- `VideoPipelineStagePayloadType`. -/
inductive StagePayloadType where
  | frame
  | batch
deriving DecidableEq, Repr

/-- `PipelinePayload`: an independent frame with its pending updates, or a
batch with pending updates tagged by frame id. -/
inductive PipelinePayload (F U : Type) where
  | frame (f : F) (pending : List U)
  | batch (b : List (Int × F)) (pending : List (Int × U))
deriving DecidableEq

/-- A stage's `payload` map, id → payload. -/
def StageMap (F U : Type) : Type := List (Int × PipelinePayload F U)

instance {F U : Type} [DecidableEq F] [DecidableEq U] : DecidableEq (StageMap F U) := by
  unfold StageMap
  infer_instance

/-- `VideoPipeline`: id counter, stages and their declared types. -/
structure VideoPipeline (F U : Type) where
  id_counter : Int
  stages : List (String × StageMap F U)
  stage_types : List (String × StagePayloadType)
deriving DecidableEq

namespace VideoPipeline

variable {F U : Type}

/-- Replaces one stage's payload map (the effect of mutating through
`get_stage_mut`). -/
def setStage (p : VideoPipeline F U) (name : String) (m : StageMap F U) :
    VideoPipeline F U :=
  { p with stages := aput name m p.stages }

/-- `VideoPipeline::add_stage`. -/
def add_stage (p : VideoPipeline F U) (name : String) (ty : StagePayloadType) :
    Except String Unit × VideoPipeline F U :=
  if (alookup name p.stages).isSome then (Except.error "Stage already exists", p)
  else
    (Except.ok (),
     { p with stages := aput name [] p.stages, stage_types := aput name ty p.stage_types })

/-- `VideoPipeline::add_frame`. -/
def add_frame (p : VideoPipeline F U) (stage : String) (f : F) :
    Except String Int × VideoPipeline F U :=
  if alookup stage p.stage_types = some StagePayloadType.batch then
    (Except.error "Stage does not accept batched frames", p)
  else
    let idc := p.id_counter + 1
    match alookup stage p.stages with
    | some m =>
        (Except.ok idc,
         { setStage p stage (aput idc (PipelinePayload.frame f []) m) with id_counter := idc })
    | none => (Except.error "Stage not found", p)

/-- `VideoPipeline::add_batch`. -/
def add_batch (p : VideoPipeline F U) (stage : String) (b : List (Int × F)) :
    Except String Int × VideoPipeline F U :=
  if alookup stage p.stage_types = some StagePayloadType.frame then
    (Except.error "Stage does not accept independent frames", p)
  else
    let idc := p.id_counter + 1
    match alookup stage p.stages with
    | some m =>
        (Except.ok idc,
         { setStage p stage (aput idc (PipelinePayload.batch b []) m) with id_counter := idc })
    | none => (Except.error "Stage not found", p)

/-- `VideoPipeline::del`. -/
def del (p : VideoPipeline F U) (stage : String) (id : Int) :
    Except String Unit × VideoPipeline F U :=
  match alookup stage p.stages with
  | some m =>
      if (alookup id m).isNone then (Except.error "Object not found in stage", p)
      else (Except.ok (), setStage p stage (aerase id m))
  | none => (Except.error "Stage not found", p)

/-- `VideoPipeline::get_independent_frame` (read access, no mutation). -/
def get_independent_frame (p : VideoPipeline F U) (stage : String) (frame_id : Int) :
    Except String F :=
  match alookup stage p.stages with
  | some m =>
      match alookup frame_id m with
      | some (PipelinePayload.frame f _) => Except.ok f
      | some _ => Except.error "Payload must be a frame"
      | none => Except.error "Frame not found in stage"
  | none => Except.error "Stage not found"

/-- `VideoPipeline::get_batch`. -/
def get_batch (p : VideoPipeline F U) (stage : String) (batch_id : Int) :
    Except String (List (Int × F)) :=
  match alookup stage p.stages with
  | some m =>
      match alookup batch_id m with
      | some (PipelinePayload.batch b _) => Except.ok b
      | some _ => Except.error "Payload must be a batch"
      | none => Except.error "Batch not found in stage"
  | none => Except.error "Stage not found"

/-- `VideoPipeline::get_batched_frame`. -/
def get_batched_frame (p : VideoPipeline F U) (stage : String) (batch_id frame_id : Int) :
    Except String F :=
  match alookup stage p.stages with
  | some m =>
      match alookup batch_id m with
      | some (PipelinePayload.batch b _) =>
          match alookup frame_id b with
          | some f => Except.ok f
          | none => Except.error "Frame not found in batch"
      | some _ => Except.error "Payload must be a batch"
      | none => Except.error "Batch not found in stage"
  | none => Except.error "Stage not found"

/-- `VideoPipeline::add_frame_update`. -/
def add_frame_update (p : VideoPipeline F U) (stage : String) (frame_id : Int) (update : U) :
    Except String Unit × VideoPipeline F U :=
  match alookup stage p.stages with
  | some m =>
      match alookup frame_id m with
      | some (PipelinePayload.frame f us) =>
          (Except.ok (),
           setStage p stage (aput frame_id (PipelinePayload.frame f (us ++ [update])) m))
      | some _ => (Except.error "Frame update can only be added to a frame payload", p)
      | none => (Except.error "Frame not found in stage", p)
  | none => (Except.error "Stage not found", p)

/-- `VideoPipeline::add_batched_frame_update`. -/
def add_batched_frame_update (p : VideoPipeline F U) (stage : String)
    (batch_id frame_id : Int) (update : U) :
    Except String Unit × VideoPipeline F U :=
  match alookup stage p.stages with
  | some m =>
      match alookup batch_id m with
      | some (PipelinePayload.batch b us) =>
          (Except.ok (),
           setStage p stage (aput batch_id (PipelinePayload.batch b (us ++ [(frame_id, update)])) m))
      | some _ => (Except.error "Batch update can only be added to a batch payload", p)
      | none => (Except.error "Batch not found in stage", p)
  | none => (Except.error "Stage not found", p)

/-- The frame arm of `apply_updates`: `updates.drain(..)` applies each update
in order; on the first failing update the loop exits with the error, the
frame keeps its last successful value, and the drained vector is empty
either way (Rust's `Drain` clears it when dropped). -/
def drainFrameUpdates (upd : F → U → Except String F) :
    F → List U → Except String Unit × F
  | f, [] => (Except.ok (), f)
  | f, u :: t =>
      match upd f u with
      | Except.ok f1 => drainFrameUpdates upd f1 t
      | Except.error e => (Except.error e, f)

/-- The batch arm of `apply_updates`: a tagged update whose frame id is not in
the batch is skipped; one whose frame is present is applied to that frame. -/
def drainBatchUpdates (upd : F → U → Except String F) :
    List (Int × F) → List (Int × U) → Except String Unit × List (Int × F)
  | b, [] => (Except.ok (), b)
  | b, (fid, u) :: t =>
      match alookup fid b with
      | some f =>
          match upd f u with
          | Except.ok f1 => drainBatchUpdates upd (aput fid f1 b) t
          | Except.error e => (Except.error e, b)
      | none => drainBatchUpdates upd b t

/-- `VideoPipeline::apply_updates`. -/
def apply_updates (upd : F → U → Except String F) (p : VideoPipeline F U)
    (stage : String) (id : Int) : Except String Unit × VideoPipeline F U :=
  match alookup stage p.stages with
  | some m =>
      match alookup id m with
      | some (PipelinePayload.frame f us) =>
          let r := drainFrameUpdates upd f us
          (r.1, setStage p stage (aput id (PipelinePayload.frame r.2 []) m))
      | some (PipelinePayload.batch b us) =>
          let r := drainBatchUpdates upd b us
          (r.1, setStage p stage (aput id (PipelinePayload.batch r.2 []) m))
      | none => (Except.error "Payload not found in stage", p)
  | none => (Except.error "Stage not found", p)

/-- The removal loop of `move_as_is`: each id is removed from the source map
and collected; a missing id aborts the loop, leaving the map with the
earlier ids already removed (their payloads are dropped by the caller). -/
def moveAsIsLoop : List Int → StageMap F U → List (Int × PipelinePayload F U) →
    Except String Unit × StageMap F U × List (Int × PipelinePayload F U)
  | [], m, acc => (Except.ok (), m, acc)
  | id :: t, m, acc =>
      match alookup id m with
      | some payload => moveAsIsLoop t (aerase id m) (acc ++ [(id, payload)])
      | none => (Except.error "Object not found in source stage", m, acc)

/-- `VideoPipeline::move_as_is`. -/
def move_as_is (p : VideoPipeline F U) (source_stage dest_stage : String)
    (object_ids : List Int) : Except String Unit × VideoPipeline F U :=
  if alookup source_stage p.stage_types ≠ alookup dest_stage p.stage_types then
    (Except.error "The source stage type must be the same as the destination stage type", p)
  else
    match alookup source_stage p.stages with
    | none => (Except.error "Source stage not found", p)
    | some srcMap =>
        match alookup dest_stage p.stages with
        | none => (Except.error "Destination stage not found", p)
        | some _ =>
            let r := moveAsIsLoop object_ids srcMap []
            let p1 := setStage p source_stage r.2.1
            match r.1 with
            | Except.error e => (Except.error e, p1)
            | Except.ok _ =>
                let dstMap := (alookup dest_stage p1.stages).getD []
                (Except.ok (),
                 setStage p1 dest_stage (r.2.2.foldl (fun m o => aput o.1 o.2 m) dstMap))

/-- The removal loop of `move_and_pack_frames`: a missing id is silently
skipped; a found frame is moved into the batch and its pending updates
are appended tagged with the frame id; a found non-frame payload has
already been removed when the loop aborts. -/
def packLoop : List Int → StageMap F U → List (Int × F) → List (Int × U) →
    Except String Unit × StageMap F U × List (Int × F) × List (Int × U)
  | [], m, b, us => (Except.ok (), m, b, us)
  | id :: t, m, b, us =>
      match alookup id m with
      | some (PipelinePayload.frame f fus) =>
          packLoop t (aerase id m) (aput id f b) (us ++ fus.map (fun u => (id, u)))
      | some _ =>
          (Except.error "Source stage must contain independent frames", aerase id m, b, us)
      | none => packLoop t m b us

/-- `VideoPipeline::move_and_pack_frames`. -/
def move_and_pack_frames (p : VideoPipeline F U) (source_stage dest_stage : String)
    (frame_ids : List Int) : Except String Int × VideoPipeline F U :=
  if alookup source_stage p.stage_types = some StagePayloadType.batch ∨
      alookup dest_stage p.stage_types = some StagePayloadType.frame then
    (Except.error
      "Source stage must contain independent frames and destination stage must contain batched frames",
     p)
  else
    let batch_id := p.id_counter + 1
    match alookup source_stage p.stages with
    | none => (Except.error "Source stage not found", p)
    | some srcMap =>
        match alookup dest_stage p.stages with
        | none => (Except.error "Destination stage not found", p)
        | some _ =>
            let r := packLoop frame_ids srcMap [] []
            let p1 := setStage p source_stage r.2.1
            match r.1 with
            | Except.error e => (Except.error e, p1)
            | Except.ok _ =>
                let dstMap := (alookup dest_stage p1.stages).getD []
                let p2 := setStage p1 dest_stage
                  (aput batch_id (PipelinePayload.batch r.2.2.1 r.2.2.2) dstMap)
                (Except.ok batch_id, { p2 with id_counter := batch_id })

/-- The re-dispatch loop of `move_and_unpack_batch`: each tagged pending
update is pushed onto the pending list of the destination frame with its
tag; a tag whose frame is missing, or whose payload is not a frame, aborts
with an error, the earlier updates already dispatched. -/
def unpackDispatchLoop : List (Int × U) → StageMap F U →
    Except String Unit × StageMap F U
  | [], m => (Except.ok (), m)
  | (fid, u) :: t, m =>
      match alookup fid m with
      | some (PipelinePayload.frame f us) =>
          unpackDispatchLoop t (aput fid (PipelinePayload.frame f (us ++ [u])) m)
      | some _ => (Except.error "Destination stage must contain independent frames", m)
      | none => (Except.error "Frame not found in destination stage", m)

/-- `VideoPipeline::move_and_unpack_batch`. -/
def move_and_unpack_batch (p : VideoPipeline F U) (source_stage dest_stage : String)
    (batch_id : Int) : Except String Unit × VideoPipeline F U :=
  if alookup source_stage p.stage_types = some StagePayloadType.frame ∨
      alookup dest_stage p.stage_types = some StagePayloadType.batch then
    (Except.error
      "Source stage must contain batched frames and destination stage must contain independent frames",
     p)
  else
    match alookup source_stage p.stages with
    | none => (Except.error "Source stage not found", p)
    | some srcMap =>
        match alookup dest_stage p.stages with
        | none => (Except.error "Destination stage not found", p)
        | some _ =>
            match alookup batch_id srcMap with
            | none => (Except.error "Batch not found in source stage", p)
            | some payload =>
                let p1 := setStage p source_stage (aerase batch_id srcMap)
                match payload with
                | PipelinePayload.frame _ _ => (Except.error "Source stage must contain batch", p1)
                | PipelinePayload.batch b updates =>
                    let dstMap := (alookup dest_stage p1.stages).getD []
                    let dstMap1 := b.foldl
                      (fun m kv => aput kv.1 (PipelinePayload.frame kv.2 []) m) dstMap
                    let r := unpackDispatchLoop updates dstMap1
                    (r.1, setStage p1 dest_stage r.2)

/-- The pending updates of the listed frames of a stage map, each tagged
with its frame id, concatenated in list order: the batch pending list that
`move_and_pack_frames` accumulates. -/
def taggedUpdates (m : StageMap F U) : List Int → List (Int × U)
  | [] => []
  | i :: t =>
      (match alookup i m with
       | some (PipelinePayload.frame _ us) => us.map (fun u => (i, u))
       | _ => []) ++ taggedUpdates m t

/-- Whether every payload of a stage map is an independent frame (true of
every Frame-typed stage in any reachable pipeline). -/
def stageAllFrames (m : StageMap F U) : Bool :=
  m.all (fun kv => match kv.2 with
    | PipelinePayload.frame _ _ => true
    | PipelinePayload.batch _ _ => false)

/-- The payload stored at `(stage, id)`. -/
def payloadAt (p : VideoPipeline F U) (stage : String) (id : Int) :
    Option (PipelinePayload F U) :=
  (alookup stage p.stages).bind (alookup id)

end VideoPipeline

/-- The empty pipeline (`VideoPipeline::default`). -/
def emptyPipeline (F U : Type) : VideoPipeline F U :=
  { id_counter := 0, stages := [], stage_types := [] }

/-- Whether the named stage's payload map, when the stage exists, holds only
independent frames.  Every Frame-typed stage of a reachable pipeline
satisfies this. -/
def srcAllFrames {F U : Type} (p : VideoPipeline F U) (src : String) : Bool :=
  match alookup src p.stages with
  | some m => VideoPipeline.stageAllFrames m
  | none => true

/-- Concrete pipeline for claim C1: stages `a` and `b`, both Frame-typed. -/
def c1p2 : VideoPipeline Nat Nat :=
  ((emptyPipeline Nat Nat).add_stage "a" StagePayloadType.frame).2.add_stage
    "b" StagePayloadType.frame |>.2

/-- The C1 pipeline after frame 7 was added to stage `a` (as id 1). -/
def c1p3 : VideoPipeline Nat Nat := (c1p2.add_frame "a" 7).2

/-- The C1 call `move_as_is("a", "b", [1, 2])` on `c1p3`: id 2 does not exist. -/
def c1res : Except String Unit × VideoPipeline Nat Nat :=
  c1p3.move_as_is "a" "b" [1, 2]

/-- Concrete update application for witnesses: updates are numbers added to
the frame. -/
def updW : Nat → Nat → Except String Nat :=
  fun f u => Except.ok (f + u)

/-- Concrete pipeline for the C5 witness: Frame stage `in` holding frame 10
(with one pending update, 100) at id 1 and frame 20 at id 2, Batch stage
`mid`, Frame stage `out`. -/
def c5p : VideoPipeline Nat Nat :=
  { id_counter := 2,
    stages := [("in", [(1, PipelinePayload.frame 10 [100]), (2, PipelinePayload.frame 20 [])]),
               ("mid", []), ("out", [])],
    stage_types := [("in", StagePayloadType.frame), ("mid", StagePayloadType.batch),
                    ("out", StagePayloadType.frame)] }

/-- Concrete pipeline for the C10 witness: a Batch-typed stage `s` holding,
at id 1, a batch with frame 1 and two pending updates, one of which targets
the absent frame id 9. -/
def c10p : VideoPipeline Nat Nat :=
  { id_counter := 1,
    stages := [("s", [(1, PipelinePayload.batch [(1, 5)] [(1, 2), (9, 3)])])],
    stage_types := [("s", StagePayloadType.batch)] }

/-- Concrete pipeline for the C7 witness: a Frame-typed stage `in` holding
frame 7 at id 1, and a Batch-typed stage `out`. -/
def c7p : VideoPipeline Nat Nat :=
  { id_counter := 1,
    stages := [("in", [(1, PipelinePayload.frame 7 [])]), ("out", [])],
    stage_types := [("in", StagePayloadType.frame), ("out", StagePayloadType.batch)] }

/-! ## Bounding-box metrics (match_query.rs BoxMetric / TrackBoxMetric arms)

`RBBox` and its `iou`/`ios`/`ioo` methods live outside src/ (only their
call sites in match_query.rs are staged), so the geometry is modelled from
the spec with rational coordinates: IoU = |A∩B| / |A∪B|, IoSelf = |A∩B| / |A|,
IoOther = |A∩B| / |B|; an undefined metric (here: zero reference area, or an
oriented box, whose intersection the model leaves out) is `none`, which the
call sites replace by 0.0 via `unwrap_or(0.0)`. -/

structure RBBoxQ where
  xc : Rat
  yc : Rat
  width : Rat
  height : Rat
  angle : Option Rat
deriving DecidableEq, Repr

namespace RBBoxQ

/-- Modelled from the spec: area = width * height. -/
def area (b : RBBoxQ) : Rat := b.width * b.height

/-- Modelled from the spec: the axis-aligned intersection area |A∩B|. -/
def interArea (a b : RBBoxQ) : Rat :=
  let ox := min (a.xc + a.width / 2) (b.xc + b.width / 2) -
            max (a.xc - a.width / 2) (b.xc - b.width / 2)
  let oy := min (a.yc + a.height / 2) (b.yc + b.height / 2) -
            max (a.yc - a.height / 2) (b.yc - b.height / 2)
  max 0 ox * max 0 oy

/-- Modelled from the spec: IoSelf = |A∩B| / |A|, undefined (`none`) when the
reference area is zero or a box is oriented. -/
def ios (a b : RBBoxQ) : Option Rat :=
  if a.angle = none ∧ b.angle = none ∧ a.area ≠ 0 then some (interArea a b / a.area)
  else none

/-- Modelled from the spec: IoU = |A∩B| / |A∪B|. -/
def iou (a b : RBBoxQ) : Option Rat :=
  if a.angle = none ∧ b.angle = none ∧ a.area + b.area - interArea a b ≠ 0 then
    some (interArea a b / (a.area + b.area - interArea a b))
  else none

/-- Modelled from the spec: IoOther = |A∩B| / |B|. -/
def ioo (a b : RBBoxQ) : Option Rat :=
  if a.angle = none ∧ b.angle = none ∧ b.area ≠ 0 then some (interArea a b / b.area)
  else none

end RBBoxQ

/-- `BBoxMetricType` (bbox.rs, referenced by the query arms). -/
inductive BBoxMetricType where
  | IoU
  | IoSelf
  | IoOther
deriving DecidableEq, Repr

/-- The fields of `VideoObject` that the box-metric query arms read: the
detection box and the optional track bounding box. -/
structure VideoObjectBoxes where
  bbox : RBBoxQ
  track_box : Option RBBoxQ
deriving DecidableEq, Repr

/-- The metric computed by the `MatchQuery::BoxMetric` arm of `execute`,
translated from the code: the IoSelf case calls `o.bbox.ios(&o.bbox)` —
the detection box against itself, not against `other`. -/
def boxMetricCode (o : VideoObjectBoxes) (other : RBBoxQ) (mt : BBoxMetricType) : Rat :=
  match mt with
  | BBoxMetricType.IoU => (RBBoxQ.iou o.bbox other).getD 0
  | BBoxMetricType.IoSelf => (RBBoxQ.ios o.bbox o.bbox).getD 0
  | BBoxMetricType.IoOther => (RBBoxQ.ioo o.bbox other).getD 0

/-- The metric computed by the `MatchQuery::TrackBoxMetric` arm for an object
whose track box is `t`, translated from the code: the IoSelf case calls
`t.bounding_box.ios(&o.bbox)` — the track box against the detection box,
not against `other`. -/
def trackBoxMetricCode (t : RBBoxQ) (o : VideoObjectBoxes) (other : RBBoxQ)
    (mt : BBoxMetricType) : Rat :=
  match mt with
  | BBoxMetricType.IoU => (RBBoxQ.iou t other).getD 0
  | BBoxMetricType.IoSelf => (RBBoxQ.ios t o.bbox).getD 0
  | BBoxMetricType.IoOther => (RBBoxQ.ioo t other).getD 0

/-- The metric the claim states for kind IoSelf: |A∩B| / |A| with B the
query's `other` box and 0.0 when undefined. -/
def ioSelfSpec (a b : RBBoxQ) : Rat := (RBBoxQ.ios a b).getD 0

/-! ## Etcd parameter storage (parameter_storage.rs)

The tokio runtime, the etcd client and the background worker task are
outside the embedding; `active` holds the value `is_active()` returns
(whether the spawned worker handle exists and has not finished).  A public
call that panics is modelled as `none`. -/

/-- `etcd_api::Operation` (modelled from the spec: the pending-operation
variants Get / Set / DelKey / DelPrefix plus Nope). -/
inductive EtcdOperation where
  | get (spec : String)
  | set (key : String) (value : List Nat) (with_lease : Bool)
  | delKey (key : String)
  | delPrefix (p : String)
  | nope
deriving DecidableEq, Repr

/-- `EtcdParameterStorage`: the shared parameter snapshot, the pending
operation queue, and the worker's liveness. -/
structure EtcdParameterStorage where
  active : Bool
  parameters : List (String × (Nat × List Nat))
  ops : List EtcdOperation
deriving DecidableEq, Repr

namespace EtcdParameterStorage

/-- `order_data_update`: panics (`none`) when the worker is not active,
otherwise appends a Get operation to the queue. -/
def order_data_update (s : EtcdParameterStorage) (spec : String) :
    Option EtcdParameterStorage :=
  if s.active then some { s with ops := s.ops ++ [EtcdOperation.get spec] } else none

/-- `set`: appends a Set operation; the source has no `is_active` check in
this method. -/
def set (s : EtcdParameterStorage) (key : String) (value : List Nat) :
    Option EtcdParameterStorage :=
  some { s with ops := s.ops ++ [EtcdOperation.set key value false] }

/-- `stop`: panics when the worker is not active, otherwise aborts it. -/
def stop (s : EtcdParameterStorage) : Option EtcdParameterStorage :=
  if s.active then some { s with active := false } else none

/-- `get_data`: panics when the worker is not active, otherwise a snapshot
read of the parameter map. -/
def get_data (s : EtcdParameterStorage) (key : String) :
    Option (Option (Nat × List Nat)) :=
  if s.active then some (alookup key s.parameters) else none

end EtcdParameterStorage

/-! ## filter and partition (match_query.rs)

`MatchQuery::execute_with_new_context` closes over the query and its
resolver context; the collection operators only consume the induced boolean
predicate on objects, so they are embedded generically over it. -/

/-- `filter(objs, q)`: `iter().filter_map(..).collect()`, keeping each
object the query matches. -/
def filterObjs {α : Type} (q : α → Bool) (objs : List α) : List α :=
  objs.filterMap (fun o => if q o then some o else none)

/-- `partition(objs, q)`: a single fold pushing each object onto the end of
the matching or the non-matching accumulator. -/
def partitionObjs {α : Type} (q : α → Bool) (objs : List α) : List α × List α :=
  objs.foldl (fun acc o => if q o then (acc.1 ++ [o], acc.2) else (acc.1, acc.2 ++ [o]))
    ([], [])

/-! ## MatchQuery JSON serialization (match_query.rs serde derive)

`to_json` / `from_json` delegate to serde_json on the derived
externally-tagged representation with the rename tags of match_query.rs.
The embedding works at the JSON value level (serde_json::Value): the
text layer of serde_json round-trips values exactly and is outside the
model.  f64 is modelled by `F64` (a finite rational or a non-finite
value); serde_json serializes a non-finite f64 as null, and refuses null
where an f64 is expected when deserializing. -/

/-- f64 model: a finite rational, or one of the non-finite values. -/
inductive F64 where
  | finite (q : Rat)
  | nan
  | inf
  | neginf
deriving DecidableEq, Repr

/-- JSON value model (serde_json::Value), integer and float numbers kept
apart as serde_json does. -/
inductive JVal where
  | null
  | bool (b : Bool)
  | int (n : Int)
  | num (q : Rat)
  | str (s : String)
  | arr (l : List JVal)
  | obj (l : List (String × JVal))

/-- serde_json serialization of f64: a non-finite float becomes null. -/
def f64ToJson : F64 → JVal
  | F64.finite q => JVal.num q
  | _ => JVal.null

/-- serde_json deserialization of f64: a number token (float or integer);
null and everything else is an error. -/
def f64FromJson : JVal → Option F64
  | JVal.num q => some (F64.finite q)
  | JVal.int n => some (F64.finite n)
  | _ => none

def F64.isFinite : F64 → Bool
  | F64.finite _ => true
  | _ => false

def intFromJson : JVal → Option Int
  | JVal.int n => some n
  | _ => none

def strFromJson : JVal → Option String
  | JVal.str s => some s
  | _ => none

inductive FloatExpression where
  | EQ (x : F64)
  | NE (x : F64)
  | LT (x : F64)
  | LE (x : F64)
  | GT (x : F64)
  | GE (x : F64)
  | Between (a b : F64)
  | OneOf (v : List F64)
deriving DecidableEq, Repr

def floatListFromJson : List JVal → Option (List F64)
  | [] => some []
  | j :: t =>
      match f64FromJson j, floatListFromJson t with
      | some x, some xs => some (x :: xs)
      | _, _ => none

def FloatExpression.toJson : FloatExpression → JVal
  | EQ x => JVal.obj [("eq", f64ToJson x)]
  | NE x => JVal.obj [("ne", f64ToJson x)]
  | LT x => JVal.obj [("lt", f64ToJson x)]
  | LE x => JVal.obj [("le", f64ToJson x)]
  | GT x => JVal.obj [("gt", f64ToJson x)]
  | GE x => JVal.obj [("ge", f64ToJson x)]
  | Between a b => JVal.obj [("between", JVal.arr [f64ToJson a, f64ToJson b])]
  | OneOf v => JVal.obj [("one_of", JVal.arr (v.map f64ToJson))]

def FloatExpression.fromJson : JVal → Option FloatExpression
  | JVal.obj [("eq", v)] => (f64FromJson v).map EQ
  | JVal.obj [("ne", v)] => (f64FromJson v).map NE
  | JVal.obj [("lt", v)] => (f64FromJson v).map LT
  | JVal.obj [("le", v)] => (f64FromJson v).map LE
  | JVal.obj [("gt", v)] => (f64FromJson v).map GT
  | JVal.obj [("ge", v)] => (f64FromJson v).map GE
  | JVal.obj [("between", JVal.arr [ja, jb])] =>
      match f64FromJson ja, f64FromJson jb with
      | some a, some b => some (Between a b)
      | _, _ => none
  | JVal.obj [("one_of", JVal.arr l)] => (floatListFromJson l).map OneOf
  | _ => none

def FloatExpression.finiteFloats : FloatExpression → Bool
  | EQ x => x.isFinite
  | NE x => x.isFinite
  | LT x => x.isFinite
  | LE x => x.isFinite
  | GT x => x.isFinite
  | GE x => x.isFinite
  | Between a b => a.isFinite && b.isFinite
  | OneOf v => v.all F64.isFinite

inductive IntExpression where
  | EQ (x : Int)
  | NE (x : Int)
  | LT (x : Int)
  | LE (x : Int)
  | GT (x : Int)
  | GE (x : Int)
  | Between (a b : Int)
  | OneOf (v : List Int)
deriving DecidableEq, Repr

def intListFromJson : List JVal → Option (List Int)
  | [] => some []
  | j :: t =>
      match intFromJson j, intListFromJson t with
      | some x, some xs => some (x :: xs)
      | _, _ => none

def IntExpression.toJson : IntExpression → JVal
  | EQ x => JVal.obj [("eq", JVal.int x)]
  | NE x => JVal.obj [("ne", JVal.int x)]
  | LT x => JVal.obj [("lt", JVal.int x)]
  | LE x => JVal.obj [("le", JVal.int x)]
  | GT x => JVal.obj [("gt", JVal.int x)]
  | GE x => JVal.obj [("ge", JVal.int x)]
  | Between a b => JVal.obj [("between", JVal.arr [JVal.int a, JVal.int b])]
  | OneOf v => JVal.obj [("one_of", JVal.arr (v.map JVal.int))]

def IntExpression.fromJson : JVal → Option IntExpression
  | JVal.obj [("eq", v)] => (intFromJson v).map EQ
  | JVal.obj [("ne", v)] => (intFromJson v).map NE
  | JVal.obj [("lt", v)] => (intFromJson v).map LT
  | JVal.obj [("le", v)] => (intFromJson v).map LE
  | JVal.obj [("gt", v)] => (intFromJson v).map GT
  | JVal.obj [("ge", v)] => (intFromJson v).map GE
  | JVal.obj [("between", JVal.arr [ja, jb])] =>
      match intFromJson ja, intFromJson jb with
      | some a, some b => some (Between a b)
      | _, _ => none
  | JVal.obj [("one_of", JVal.arr l)] => (intListFromJson l).map OneOf
  | _ => none

inductive StringExpression where
  | EQ (s : String)
  | NE (s : String)
  | Contains (s : String)
  | NotContains (s : String)
  | StartsWith (s : String)
  | EndsWith (s : String)
  | OneOf (v : List String)
deriving DecidableEq, Repr

def strListFromJson : List JVal → Option (List String)
  | [] => some []
  | j :: t =>
      match strFromJson j, strListFromJson t with
      | some x, some xs => some (x :: xs)
      | _, _ => none

def StringExpression.toJson : StringExpression → JVal
  | EQ s => JVal.obj [("eq", JVal.str s)]
  | NE s => JVal.obj [("ne", JVal.str s)]
  | Contains s => JVal.obj [("contains", JVal.str s)]
  | NotContains s => JVal.obj [("not_contains", JVal.str s)]
  | StartsWith s => JVal.obj [("starts_with", JVal.str s)]
  | EndsWith s => JVal.obj [("ends_with", JVal.str s)]
  | OneOf v => JVal.obj [("one_of", JVal.arr (v.map JVal.str))]

def StringExpression.fromJson : JVal → Option StringExpression
  | JVal.obj [("eq", v)] => (strFromJson v).map EQ
  | JVal.obj [("ne", v)] => (strFromJson v).map NE
  | JVal.obj [("contains", v)] => (strFromJson v).map Contains
  | JVal.obj [("not_contains", v)] => (strFromJson v).map NotContains
  | JVal.obj [("starts_with", v)] => (strFromJson v).map StartsWith
  | JVal.obj [("ends_with", v)] => (strFromJson v).map EndsWith
  | JVal.obj [("one_of", JVal.arr l)] => (strListFromJson l).map OneOf
  | _ => none

def BBoxMetricType.toJson : BBoxMetricType → JVal
  | IoU => JVal.str "IoU"
  | IoSelf => JVal.str "IoSelf"
  | IoOther => JVal.str "IoOther"

def BBoxMetricType.fromJson : JVal → Option BBoxMetricType
  | JVal.str "IoU" => some IoU
  | JVal.str "IoSelf" => some IoSelf
  | JVal.str "IoOther" => some IoOther
  | _ => none

/-- The query bbox tuple (xc, yc, w, h, optional angle). -/
def BoxTuple : Type := F64 × F64 × F64 × F64 × Option F64

instance : DecidableEq BoxTuple := by
  unfold BoxTuple
  infer_instance

def optF64ToJson : Option F64 → JVal
  | none => JVal.null
  | some x => f64ToJson x

def optF64FromJson : JVal → Option (Option F64)
  | JVal.null => some none
  | j => (f64FromJson j).map some

def boxTupleToJson (t : BoxTuple) : JVal :=
  JVal.arr [f64ToJson t.1, f64ToJson t.2.1, f64ToJson t.2.2.1, f64ToJson t.2.2.2.1,
    optF64ToJson t.2.2.2.2]

def boxTupleFromJson : JVal → Option BoxTuple
  | JVal.arr [j1, j2, j3, j4, j5] =>
      match f64FromJson j1, f64FromJson j2, f64FromJson j3, f64FromJson j4,
          optF64FromJson j5 with
      | some a, some b, some c, some d, some e => some (a, b, c, d, e)
      | _, _, _, _, _ => none
  | _ => none

def optF64IsFinite : Option F64 → Bool
  | none => true
  | some x => x.isFinite

def BoxTuple.finiteFloats (t : BoxTuple) : Bool :=
  t.1.isFinite && t.2.1.isFinite && t.2.2.1.isFinite && t.2.2.2.1.isFinite &&
    optF64IsFinite t.2.2.2.2

/-- The MatchQuery AST (match_query.rs), f64 modelled by `F64`. -/
inductive MatchQuery where
  | Id (e : IntExpression)
  | Creator (e : StringExpression)
  | Label (e : StringExpression)
  | ConfidenceDefined
  | Confidence (e : FloatExpression)
  | TrackDefined
  | TrackId (e : IntExpression)
  | TrackBoxXCenter (e : FloatExpression)
  | TrackBoxYCenter (e : FloatExpression)
  | TrackBoxWidth (e : FloatExpression)
  | TrackBoxHeight (e : FloatExpression)
  | TrackBoxArea (e : FloatExpression)
  | TrackBoxWidthToHeightRatio (e : FloatExpression)
  | TrackBoxAngleDefined
  | TrackBoxAngle (e : FloatExpression)
  | TrackBoxMetric (other : BoxTuple) (metric_type : BBoxMetricType)
      (threshold_expr : FloatExpression)
  | ParentDefined
  | ParentId (e : IntExpression)
  | ParentCreator (e : StringExpression)
  | ParentLabel (e : StringExpression)
  | WithChildren (q : MatchQuery) (e : IntExpression)
  | BoxXCenter (e : FloatExpression)
  | BoxYCenter (e : FloatExpression)
  | BoxWidth (e : FloatExpression)
  | BoxHeight (e : FloatExpression)
  | BoxArea (e : FloatExpression)
  | BoxWidthToHeightRatio (e : FloatExpression)
  | BoxAngleDefined
  | BoxAngle (e : FloatExpression)
  | BoxMetric (other : BoxTuple) (metric_type : BBoxMetricType)
      (threshold_expr : FloatExpression)
  | AttributeDefined (namespace1 name : String)
  | AttributesEmpty
  | AttributesJMESQuery (e : String)
  | And (v : List MatchQuery)
  | Or (v : List MatchQuery)
  | Not (q : MatchQuery)
  | Idle
  | UserDefinedObjectPredicate (plugin symbol : String)
  | EvalExpr (e : String)

mutual
/-- serde_json serialization of a MatchQuery (externally tagged with the
serde rename tags of match_query.rs). -/
def MatchQuery.toJson : MatchQuery → JVal
  | MatchQuery.Id e => JVal.obj [("object.id", e.toJson)]
  | MatchQuery.Creator e => JVal.obj [("creator", e.toJson)]
  | MatchQuery.Label e => JVal.obj [("label", e.toJson)]
  | MatchQuery.ConfidenceDefined => JVal.str "confidence.defined"
  | MatchQuery.Confidence e => JVal.obj [("confidence", e.toJson)]
  | MatchQuery.TrackDefined => JVal.str "track.id.defined"
  | MatchQuery.TrackId e => JVal.obj [("track.id", e.toJson)]
  | MatchQuery.TrackBoxXCenter e => JVal.obj [("track.bbox.xc", e.toJson)]
  | MatchQuery.TrackBoxYCenter e => JVal.obj [("track.bbox.yc", e.toJson)]
  | MatchQuery.TrackBoxWidth e => JVal.obj [("track.bbox.width", e.toJson)]
  | MatchQuery.TrackBoxHeight e => JVal.obj [("track.bbox.height", e.toJson)]
  | MatchQuery.TrackBoxArea e => JVal.obj [("track.bbox.area", e.toJson)]
  | MatchQuery.TrackBoxWidthToHeightRatio e =>
      JVal.obj [("track.bbox.width_to_height_ratio", e.toJson)]
  | MatchQuery.TrackBoxAngleDefined => JVal.str "track.bbox.angle.defined"
  | MatchQuery.TrackBoxAngle e => JVal.obj [("track.bbox.angle", e.toJson)]
  | MatchQuery.TrackBoxMetric o m t =>
      JVal.obj [("track.bbox.metric",
        JVal.obj [("other", boxTupleToJson o), ("metric_type", m.toJson),
          ("threshold_expr", t.toJson)])]
  | MatchQuery.ParentDefined => JVal.str "parent.defined"
  | MatchQuery.ParentId e => JVal.obj [("parent.id", e.toJson)]
  | MatchQuery.ParentCreator e => JVal.obj [("parent.creator", e.toJson)]
  | MatchQuery.ParentLabel e => JVal.obj [("parent.label", e.toJson)]
  | MatchQuery.WithChildren q e =>
      JVal.obj [("with_children", JVal.arr [q.toJson, e.toJson])]
  | MatchQuery.BoxXCenter e => JVal.obj [("bbox.xc", e.toJson)]
  | MatchQuery.BoxYCenter e => JVal.obj [("bbox.yc", e.toJson)]
  | MatchQuery.BoxWidth e => JVal.obj [("bbox.width", e.toJson)]
  | MatchQuery.BoxHeight e => JVal.obj [("bbox.height", e.toJson)]
  | MatchQuery.BoxArea e => JVal.obj [("bbox.area", e.toJson)]
  | MatchQuery.BoxWidthToHeightRatio e =>
      JVal.obj [("bbox.width_to_height_ratio", e.toJson)]
  | MatchQuery.BoxAngleDefined => JVal.str "bbox.angle.defined"
  | MatchQuery.BoxAngle e => JVal.obj [("bbox.angle", e.toJson)]
  | MatchQuery.BoxMetric o m t =>
      JVal.obj [("bbox.metric",
        JVal.obj [("other", boxTupleToJson o), ("metric_type", m.toJson),
          ("threshold_expr", t.toJson)])]
  | MatchQuery.AttributeDefined ns n =>
      JVal.obj [("attribute.defined", JVal.arr [JVal.str ns, JVal.str n])]
  | MatchQuery.AttributesEmpty => JVal.str "attributes.empty"
  | MatchQuery.AttributesJMESQuery e => JVal.obj [("attributes.jmes_query", JVal.str e)]
  | MatchQuery.And v => JVal.obj [("and", JVal.arr (MatchQuery.listToJson v))]
  | MatchQuery.Or v => JVal.obj [("or", JVal.arr (MatchQuery.listToJson v))]
  | MatchQuery.Not q => JVal.obj [("not", q.toJson)]
  | MatchQuery.Idle => JVal.str "pass"
  | MatchQuery.UserDefinedObjectPredicate p s =>
      JVal.obj [("user_defined_object_predicate", JVal.arr [JVal.str p, JVal.str s])]
  | MatchQuery.EvalExpr e => JVal.obj [("eval", JVal.str e)]
def MatchQuery.listToJson : List MatchQuery → List JVal
  | [] => []
  | q :: t => q.toJson :: MatchQuery.listToJson t
end

/-- Deserialization of the unit variants (serialized as bare tag strings). -/
def mqFromTag0 (tag : String) : Option MatchQuery :=
  if tag = "confidence.defined" then some MatchQuery.ConfidenceDefined
  else if tag = "track.id.defined" then some MatchQuery.TrackDefined
  else if tag = "track.bbox.angle.defined" then some MatchQuery.TrackBoxAngleDefined
  else if tag = "parent.defined" then some MatchQuery.ParentDefined
  else if tag = "bbox.angle.defined" then some MatchQuery.BoxAngleDefined
  else if tag = "attributes.empty" then some MatchQuery.AttributesEmpty
  else if tag = "pass" then some MatchQuery.Idle
  else none

/-- Deserialization of the non-recursive tagged variants. -/
def mqFromTag1 (tag : String) (v : JVal) : Option MatchQuery :=
  if tag = "object.id" then (IntExpression.fromJson v).map MatchQuery.Id
  else if tag = "creator" then (StringExpression.fromJson v).map MatchQuery.Creator
  else if tag = "label" then (StringExpression.fromJson v).map MatchQuery.Label
  else if tag = "confidence" then (FloatExpression.fromJson v).map MatchQuery.Confidence
  else if tag = "track.id" then (IntExpression.fromJson v).map MatchQuery.TrackId
  else if tag = "track.bbox.xc" then
    (FloatExpression.fromJson v).map MatchQuery.TrackBoxXCenter
  else if tag = "track.bbox.yc" then
    (FloatExpression.fromJson v).map MatchQuery.TrackBoxYCenter
  else if tag = "track.bbox.width" then
    (FloatExpression.fromJson v).map MatchQuery.TrackBoxWidth
  else if tag = "track.bbox.height" then
    (FloatExpression.fromJson v).map MatchQuery.TrackBoxHeight
  else if tag = "track.bbox.area" then
    (FloatExpression.fromJson v).map MatchQuery.TrackBoxArea
  else if tag = "track.bbox.width_to_height_ratio" then
    (FloatExpression.fromJson v).map MatchQuery.TrackBoxWidthToHeightRatio
  else if tag = "track.bbox.angle" then
    (FloatExpression.fromJson v).map MatchQuery.TrackBoxAngle
  else if tag = "track.bbox.metric" then
    match v with
    | JVal.obj [("other", jo), ("metric_type", jm), ("threshold_expr", jt)] =>
        match boxTupleFromJson jo, BBoxMetricType.fromJson jm,
            FloatExpression.fromJson jt with
        | some o, some m, some t => some (MatchQuery.TrackBoxMetric o m t)
        | _, _, _ => none
    | _ => none
  else if tag = "parent.id" then (IntExpression.fromJson v).map MatchQuery.ParentId
  else if tag = "parent.creator" then
    (StringExpression.fromJson v).map MatchQuery.ParentCreator
  else if tag = "parent.label" then
    (StringExpression.fromJson v).map MatchQuery.ParentLabel
  else if tag = "bbox.xc" then (FloatExpression.fromJson v).map MatchQuery.BoxXCenter
  else if tag = "bbox.yc" then (FloatExpression.fromJson v).map MatchQuery.BoxYCenter
  else if tag = "bbox.width" then (FloatExpression.fromJson v).map MatchQuery.BoxWidth
  else if tag = "bbox.height" then (FloatExpression.fromJson v).map MatchQuery.BoxHeight
  else if tag = "bbox.area" then (FloatExpression.fromJson v).map MatchQuery.BoxArea
  else if tag = "bbox.width_to_height_ratio" then
    (FloatExpression.fromJson v).map MatchQuery.BoxWidthToHeightRatio
  else if tag = "bbox.angle" then (FloatExpression.fromJson v).map MatchQuery.BoxAngle
  else if tag = "bbox.metric" then
    match v with
    | JVal.obj [("other", jo), ("metric_type", jm), ("threshold_expr", jt)] =>
        match boxTupleFromJson jo, BBoxMetricType.fromJson jm,
            FloatExpression.fromJson jt with
        | some o, some m, some t => some (MatchQuery.BoxMetric o m t)
        | _, _, _ => none
    | _ => none
  else if tag = "attribute.defined" then
    match v with
    | JVal.arr [JVal.str ns, JVal.str n] => some (MatchQuery.AttributeDefined ns n)
    | _ => none
  else if tag = "attributes.jmes_query" then
    (strFromJson v).map MatchQuery.AttributesJMESQuery
  else if tag = "user_defined_object_predicate" then
    match v with
    | JVal.arr [JVal.str p, JVal.str sy] =>
        some (MatchQuery.UserDefinedObjectPredicate p sy)
    | _ => none
  else if tag = "eval" then (strFromJson v).map MatchQuery.EvalExpr
  else none

mutual
/-- serde_json deserialization of a MatchQuery, inverse of the externally
tagged encoding on the values `toJson` produces: a bare string is a unit
variant; a single-entry object dispatches on its tag, the combinator tags
recursing into sub-queries. -/
def MatchQuery.fromJson : JVal → Option MatchQuery
  | JVal.str tag => mqFromTag0 tag
  | JVal.obj [(tag, v)] =>
      if tag = "not" then (MatchQuery.fromJson v).map MatchQuery.Not
      else if tag = "and" then (MatchQuery.arrFromJson v).map MatchQuery.And
      else if tag = "or" then (MatchQuery.arrFromJson v).map MatchQuery.Or
      else if tag = "with_children" then MatchQuery.wcFromJson v
      else mqFromTag1 tag v
  | _ => none
/-- Parses a JSON array of sub-queries (the payload of `and` / `or`). -/
def MatchQuery.arrFromJson : JVal → Option (List MatchQuery)
  | JVal.arr l => MatchQuery.listFromJson l
  | _ => none
/-- Parses the `[query, int-expression]` payload of `with_children`. -/
def MatchQuery.wcFromJson : JVal → Option MatchQuery
  | JVal.arr [jq, je] =>
      match MatchQuery.fromJson jq, IntExpression.fromJson je with
      | some q, some e => some (MatchQuery.WithChildren q e)
      | _, _ => none
  | _ => none
def MatchQuery.listFromJson : List JVal → Option (List MatchQuery)
  | [] => some []
  | j :: t =>
      match MatchQuery.fromJson j, MatchQuery.listFromJson t with
      | some q, some qs => some (q :: qs)
      | _, _ => none
end

mutual
/-- Whether every f64 leaf of the query is a finite float. -/
def MatchQuery.finiteFloats : MatchQuery → Bool
  | MatchQuery.Confidence e => e.finiteFloats
  | MatchQuery.TrackBoxXCenter e => e.finiteFloats
  | MatchQuery.TrackBoxYCenter e => e.finiteFloats
  | MatchQuery.TrackBoxWidth e => e.finiteFloats
  | MatchQuery.TrackBoxHeight e => e.finiteFloats
  | MatchQuery.TrackBoxArea e => e.finiteFloats
  | MatchQuery.TrackBoxWidthToHeightRatio e => e.finiteFloats
  | MatchQuery.TrackBoxAngle e => e.finiteFloats
  | MatchQuery.TrackBoxMetric o _ t => o.finiteFloats && t.finiteFloats
  | MatchQuery.WithChildren q _ => q.finiteFloats
  | MatchQuery.BoxXCenter e => e.finiteFloats
  | MatchQuery.BoxYCenter e => e.finiteFloats
  | MatchQuery.BoxWidth e => e.finiteFloats
  | MatchQuery.BoxHeight e => e.finiteFloats
  | MatchQuery.BoxArea e => e.finiteFloats
  | MatchQuery.BoxWidthToHeightRatio e => e.finiteFloats
  | MatchQuery.BoxAngle e => e.finiteFloats
  | MatchQuery.BoxMetric o _ t => o.finiteFloats && t.finiteFloats
  | MatchQuery.And v => MatchQuery.listFiniteFloats v
  | MatchQuery.Or v => MatchQuery.listFiniteFloats v
  | MatchQuery.Not q => q.finiteFloats
  | _ => true
def MatchQuery.listFiniteFloats : List MatchQuery → Bool
  | [] => true
  | q :: t => q.finiteFloats && MatchQuery.listFiniteFloats t
end

/-! # Theorems -/

/-! ## Association-list lemmas -/

@[simp]
theorem alookup_nil {K V : Type} [DecidableEq K] (k : K) :
    alookup k ([] : List (K × V)) = none := rfl

@[simp]
theorem alookup_cons {K V : Type} [DecidableEq K] (k k1 : K) (v : V) (t : List (K × V)) :
    alookup k ((k1, v) :: t) = if k1 = k then some v else alookup k t := rfl

@[simp]
theorem alookup_aput_self {K V : Type} [DecidableEq K] (k : K) (v : V) (l : List (K × V)) :
    alookup k (aput k v l) = some v := by
  induction l with
  | nil => simp [aput]
  | cons h t ih =>
      obtain ⟨k1, v1⟩ := h
      by_cases hk : k1 = k <;> simp [aput, hk, ih]

theorem alookup_aput_ne {K V : Type} [DecidableEq K] (k j : K) (v : V) (l : List (K × V))
    (h : j ≠ k) : alookup j (aput k v l) = alookup j l := by
  induction l with
  | nil => simp [aput, Ne.symm h]
  | cons hd t ih =>
      obtain ⟨k1, v1⟩ := hd
      by_cases hk : k1 = k
      · simp [aput, hk, Ne.symm h]
      · simp [aput, hk, ih]

theorem alookup_aerase_ne {K V : Type} [DecidableEq K] (k j : K) (l : List (K × V))
    (h : j ≠ k) : alookup j (aerase k l) = alookup j l := by
  induction l with
  | nil => simp [aerase]
  | cons hd t ih =>
      obtain ⟨k1, v1⟩ := hd
      by_cases hk : k1 = k
      · simp [aerase, hk, Ne.symm h]
      · simp [aerase, hk, ih]

theorem alookup_eq_none_of_not_mem {K V : Type} [DecidableEq K] (k : K) (l : List (K × V))
    (h : k ∉ l.map Prod.fst) : alookup k l = none := by
  induction l with
  | nil => rfl
  | cons hd t ih =>
      obtain ⟨k1, v1⟩ := hd
      simp only [List.map_cons, List.mem_cons] at h
      push_neg at h
      have hne : k1 ≠ k := fun hc => h.1 hc.symm
      simp [alookup, hne, ih h.2]

@[simp]
theorem alookup_aerase_self {K V : Type} [DecidableEq K] (k : K) (l : List (K × V))
    (hnd : (l.map Prod.fst).Nodup) :
    alookup k (aerase k l) = none := by
  induction l with
  | nil => simp [aerase]
  | cons hd t ih =>
      obtain ⟨k1, v1⟩ := hd
      simp only [List.map_cons, List.nodup_cons] at hnd
      by_cases hk : k1 = k
      · simp only [aerase, if_pos hk]
        exact alookup_eq_none_of_not_mem k t (hk ▸ hnd.1)
      · simp [aerase, hk, ih hnd.2]

theorem mem_keys_aput {K V : Type} [DecidableEq K] (j k : K) (v : V) (l : List (K × V)) :
    j ∈ (aput k v l).map Prod.fst ↔ j = k ∨ j ∈ l.map Prod.fst := by
  induction l with
  | nil => simp [aput]
  | cons hd t ih =>
      obtain ⟨k1, v1⟩ := hd
      by_cases hk : k1 = k
      · subst hk
        simp [aput]
      · simp only [aput, if_neg hk, List.map_cons, List.mem_cons, ih]
        tauto

theorem nodup_keys_aput {K V : Type} [DecidableEq K] (k : K) (v : V) (l : List (K × V))
    (h : (l.map Prod.fst).Nodup) : ((aput k v l).map Prod.fst).Nodup := by
  induction l with
  | nil => simp [aput]
  | cons hd t ih =>
      obtain ⟨k1, v1⟩ := hd
      simp only [List.map_cons, List.nodup_cons] at h
      by_cases hk : k1 = k
      · subst hk
        simpa [aput] using h
      · simp only [aput, if_neg hk, List.map_cons, List.nodup_cons]
        refine ⟨?_, ih h.2⟩
        rw [mem_keys_aput]
        push_neg
        exact ⟨hk, h.1⟩

theorem alookup_foldl_aput_not_mem {K A B : Type} [DecidableEq K] (g : A → B)
    (l : List (K × A)) (m0 : List (K × B)) (i : K) (h : i ∉ l.map Prod.fst) :
    alookup i (l.foldl (fun m kv => aput kv.1 (g kv.2) m) m0) = alookup i m0 := by
  induction l generalizing m0 with
  | nil => rfl
  | cons hd t ih =>
      obtain ⟨k, a⟩ := hd
      simp only [List.map_cons, List.mem_cons] at h
      push_neg at h
      rw [List.foldl_cons, ih _ h.2, alookup_aput_ne _ _ _ _ h.1]

theorem alookup_foldl_aput {K A B : Type} [DecidableEq K] (g : A → B)
    (l : List (K × A)) (m0 : List (K × B)) (i : K) (hnd : (l.map Prod.fst).Nodup) :
    alookup i (l.foldl (fun m kv => aput kv.1 (g kv.2) m) m0) =
      match alookup i l with
      | some a => some (g a)
      | none => alookup i m0 := by
  induction l generalizing m0 with
  | nil => rfl
  | cons hd t ih =>
      obtain ⟨k, a⟩ := hd
      simp only [List.map_cons, List.nodup_cons] at hnd
      by_cases hk : k = i
      · subst hk
        rw [List.foldl_cons, alookup_foldl_aput_not_mem g t _ k hnd.1]
        simp [alookup_aput_self]
      · rw [List.foldl_cons, ih _ hnd.2]
        cases h2 : alookup i t <;>
          simp [alookup, hk, h2, alookup_aput_ne _ _ _ _ (fun hc => hk hc.symm)]

theorem alookup_mem {K V : Type} [DecidableEq K] {k : K} {v : V} {l : List (K × V)}
    (h : alookup k l = some v) : (k, v) ∈ l := by
  induction l with
  | nil => simp [alookup] at h
  | cons hd t ih =>
      obtain ⟨k1, v1⟩ := hd
      by_cases hk : k1 = k
      · simp only [alookup_cons, if_pos hk] at h
        cases h
        simp [hk]
      · simp only [alookup_cons, if_neg hk] at h
        exact List.mem_cons_of_mem _ (ih h)

/-! ## C3 and C6: the persistent FIFO's push guard and FIFO order -/

/-- C3: the seven operations of `c3Trace` all succeed and reach the wrapped
state write_index = 1, read_index = 2, whose modular length is 3 =
max_elements, yet a further push is accepted by the code's guard
`write_index >= read_index + max_elements`; the claimed modular guard
would reject it. -/
theorem C3_push_wrapped_overfill_eval :
    (runQueueOps 4 (PersistentQueue.fresh 3) c3Trace).2 =
      [QueueOpResult.pushOk, QueueOpResult.pushOk,
       QueueOpResult.popped (some [1]), QueueOpResult.popped (some [2]),
       QueueOpResult.pushOk, QueueOpResult.pushOk, QueueOpResult.pushOk] ∧
    c3State.write_index = 1 ∧ c3State.read_index = 2 ∧
    c3State.max_elements = 3 ∧
    PersistentQueue.modLen 4 c3State = 3 ∧
    (PersistentQueue.push 4 c3State [6]).1 = Except.ok () :=
  ⟨rfl, rfl, rfl, rfl, rfl, rfl⟩

/-- C6: in the interleaving `c6Trace` (n = 6 successful pushes, m = 3 pops,
MAX_ALLOWED_INDEX = 4, max_elements = 3) the third pop returns `none`
instead of the third pushed value `[3]`: after the sixth push the write
index catches up with the read index, `is_empty` reports true, and the
four unread cells are stranded in the database. -/
theorem C6_fifo_violation_eval :
    (runQueueOps 4 (PersistentQueue.fresh 3) c6Trace).2 =
      [QueueOpResult.pushOk, QueueOpResult.pushOk,
       QueueOpResult.popped (some [1]), QueueOpResult.popped (some [2]),
       QueueOpResult.pushOk, QueueOpResult.pushOk, QueueOpResult.pushOk,
       QueueOpResult.pushOk, QueueOpResult.popped none] ∧
    QueueOpResult.popped none ≠ QueueOpResult.popped (some [3]) ∧
    PersistentQueue.is_empty (runQueueOps 4 (PersistentQueue.fresh 3) c6Trace).1 = true ∧
    (runQueueOps 4 (PersistentQueue.fresh 3) c6Trace).1.db ≠ [] :=
  ⟨rfl, by decide, rfl, by decide⟩

/-! ## Pipeline operation lemmas -/

namespace VideoPipeline

variable {F U : Type}

theorem setStage_id_counter (p : VideoPipeline F U) (name : String) (m : StageMap F U) :
    (p.setStage name m).id_counter = p.id_counter := rfl

theorem add_frame_ok {p q : VideoPipeline F U} {st : String} {f : F} {i : Int}
    (h : p.add_frame st f = (Except.ok i, q)) :
    i = p.id_counter + 1 ∧ q.id_counter = p.id_counter + 1 := by
  unfold add_frame at h
  split at h
  · simp at h
  · cases hms : alookup st p.stages with
    | some m =>
        rw [hms] at h
        simp only [Prod.mk.injEq, Except.ok.injEq] at h
        obtain ⟨h1, h2⟩ := h
        subst h1
        subst h2
        exact ⟨rfl, rfl⟩
    | none => rw [hms] at h; simp at h

theorem add_frame_err {p q : VideoPipeline F U} {st : String} {f : F} {e : String}
    (h : p.add_frame st f = (Except.error e, q)) : q = p := by
  unfold add_frame at h
  split at h
  · simp only [Prod.mk.injEq] at h
    exact h.2.symm
  · cases hms : alookup st p.stages with
    | some m => rw [hms] at h; simp at h
    | none =>
        rw [hms] at h
        simp only [Prod.mk.injEq] at h
        exact h.2.symm

theorem add_batch_ok {p q : VideoPipeline F U} {st : String} {b : List (Int × F)} {i : Int}
    (h : p.add_batch st b = (Except.ok i, q)) :
    i = p.id_counter + 1 ∧ q.id_counter = p.id_counter + 1 := by
  unfold add_batch at h
  split at h
  · simp at h
  · cases hms : alookup st p.stages with
    | some m =>
        rw [hms] at h
        simp only [Prod.mk.injEq, Except.ok.injEq] at h
        obtain ⟨h1, h2⟩ := h
        subst h1
        subst h2
        exact ⟨rfl, rfl⟩
    | none => rw [hms] at h; simp at h

theorem add_batch_err {p q : VideoPipeline F U} {st : String} {b : List (Int × F)} {e : String}
    (h : p.add_batch st b = (Except.error e, q)) : q = p := by
  unfold add_batch at h
  split at h
  · simp only [Prod.mk.injEq] at h
    exact h.2.symm
  · cases hms : alookup st p.stages with
    | some m => rw [hms] at h; simp at h
    | none =>
        rw [hms] at h
        simp only [Prod.mk.injEq] at h
        exact h.2.symm

theorem stageAllFrames_lookup {m : StageMap F U} {i : Int} {pay : PipelinePayload F U}
    (hm : stageAllFrames m = true) (h : alookup i m = some pay) :
    ∃ f us, pay = PipelinePayload.frame f us := by
  have hmem := alookup_mem h
  have hp := List.all_eq_true.mp hm _ hmem
  cases pay with
  | frame f us => exact ⟨f, us, rfl⟩
  | batch b us => simp at hp

theorem stageAllFrames_aerase {m : StageMap F U} (k : Int)
    (hm : stageAllFrames m = true) : stageAllFrames (aerase k m) = true := by
  induction m with
  | nil => simp [aerase, stageAllFrames]
  | cons hd t ih =>
      obtain ⟨k1, v1⟩ := hd
      simp only [stageAllFrames, List.all_cons, Bool.and_eq_true] at hm
      by_cases hk : k1 = k
      · simpa [aerase, hk, stageAllFrames] using hm.2
      · simp only [aerase, if_neg hk]
        simp only [stageAllFrames, List.all_cons, Bool.and_eq_true]
        exact ⟨hm.1, ih hm.2⟩

theorem packLoop_ok {ids : List Int} {m : StageMap F U} {b : List (Int × F)}
    {us : List (Int × U)} (hm : stageAllFrames m = true) :
    (packLoop ids m b us).1 = Except.ok () := by
  induction ids generalizing m b us with
  | nil => rfl
  | cons id t ih =>
      cases hl : alookup id m with
      | none => simpa only [packLoop, hl] using ih hm
      | some pay =>
          obtain ⟨f, fus, rfl⟩ := stageAllFrames_lookup hm hl
          simpa only [packLoop, hl] using ih (stageAllFrames_aerase _ hm)

theorem move_and_pack_ok {p q : VideoPipeline F U} {src dst : String} {ids : List Int}
    {i : Int} (h : p.move_and_pack_frames src dst ids = (Except.ok i, q)) :
    i = p.id_counter + 1 ∧ q.id_counter = p.id_counter + 1 := by
  unfold move_and_pack_frames at h
  split at h
  · simp at h
  · cases hms : alookup src p.stages with
    | none => simp [hms] at h
    | some sm =>
        cases hmd : alookup dst p.stages with
        | none => simp [hms, hmd] at h
        | some dm =>
            cases hpl : (packLoop ids sm [] []).1 with
            | error e1 => simp [hms, hmd, hpl] at h
            | ok u =>
                simp only [hms, hmd, hpl, Prod.mk.injEq, Except.ok.injEq] at h
                obtain ⟨h1, h2⟩ := h
                subst h1
                subst h2
                exact ⟨rfl, rfl⟩

theorem move_and_pack_err {p q : VideoPipeline F U} {src dst : String} {ids : List Int}
    {e : String} (hWT : srcAllFrames p src = true)
    (h : p.move_and_pack_frames src dst ids = (Except.error e, q)) : q = p := by
  unfold move_and_pack_frames at h
  split at h
  · simp only [Prod.mk.injEq] at h
    exact h.2.symm
  · cases hms : alookup src p.stages with
    | none =>
        simp only [hms, Prod.mk.injEq] at h
        exact h.2.symm
    | some sm =>
        cases hmd : alookup dst p.stages with
        | none =>
            simp only [hms, hmd, Prod.mk.injEq] at h
            exact h.2.symm
        | some dm =>
            have hsm : stageAllFrames sm = true := by
              unfold srcAllFrames at hWT
              rw [hms] at hWT
              exact hWT
            simp [hms, hmd, packLoop_ok hsm] at h

theorem add_stage_id_counter (p : VideoPipeline F U) (name : String) (ty : StagePayloadType) :
    (p.add_stage name ty).2.id_counter = p.id_counter := by
  unfold add_stage
  split <;> rfl

theorem del_id_counter (p : VideoPipeline F U) (st : String) (id : Int) :
    (p.del st id).2.id_counter = p.id_counter := by
  unfold del
  repeat' split
  all_goals rfl

theorem add_frame_update_id_counter (p : VideoPipeline F U) (st : String) (fid : Int) (u : U) :
    (p.add_frame_update st fid u).2.id_counter = p.id_counter := by
  unfold add_frame_update
  repeat' split
  all_goals rfl

theorem add_batched_frame_update_id_counter (p : VideoPipeline F U) (st : String)
    (bid fid : Int) (u : U) :
    (p.add_batched_frame_update st bid fid u).2.id_counter = p.id_counter := by
  unfold add_batched_frame_update
  repeat' split
  all_goals rfl

theorem apply_updates_id_counter (upd : F → U → Except String F) (p : VideoPipeline F U)
    (st : String) (id : Int) :
    (apply_updates upd p st id).2.id_counter = p.id_counter := by
  unfold apply_updates
  repeat' split
  all_goals rfl

theorem move_as_is_id_counter (p : VideoPipeline F U) (src dst : String) (ids : List Int) :
    (p.move_as_is src dst ids).2.id_counter = p.id_counter := by
  unfold move_as_is
  split
  · rfl
  cases hms : alookup src p.stages with
  | none => rfl
  | some sm =>
      cases hmd : alookup dst p.stages with
      | none => rfl
      | some dm =>
          cases hr : (moveAsIsLoop ids sm ([] : List (Int × PipelinePayload F U))).1 with
          | error e => simp [hr, setStage]
          | ok u => simp [hr, setStage]

theorem move_and_unpack_id_counter (p : VideoPipeline F U) (src dst : String) (bid : Int) :
    (p.move_and_unpack_batch src dst bid).2.id_counter = p.id_counter := by
  unfold move_and_unpack_batch
  split
  · rfl
  cases hms : alookup src p.stages with
  | none => rfl
  | some sm =>
      cases hmd : alookup dst p.stages with
      | none => rfl
      | some dm =>
          cases hb : alookup bid sm with
          | none => simp [hb]
          | some pay =>
              cases pay with
              | frame f us => simp [hb, setStage]
              | batch b us => simp [hb, setStage]

theorem taggedUpdates_aerase {m : StageMap F U} {j : Int} {t : List Int} (h : j ∉ t) :
    taggedUpdates (aerase j m) t = taggedUpdates m t := by
  induction t with
  | nil => rfl
  | cons i t2 ih =>
      simp only [List.mem_cons] at h
      push_neg at h
      have hne : i ≠ j := fun hc => h.1 hc.symm
      simp only [taggedUpdates, alookup_aerase_ne j i m hne, ih h.2]

theorem taggedUpdates_tag_mem {m : StageMap F U} {t : List Int} {kv : Int × U}
    (h : kv ∈ taggedUpdates m t) : kv.1 ∈ t := by
  induction t with
  | nil => cases h
  | cons j t2 ih =>
      simp only [taggedUpdates, List.mem_append] at h
      rcases h with h | h
      · have hkv1 : kv.1 = j := by
          cases hl : alookup j m with
          | none => rw [hl] at h; cases h
          | some pay =>
              cases pay with
              | frame f us =>
                  rw [hl] at h
                  obtain ⟨u, _, hu⟩ := List.mem_map.mp h
                  rw [← hu]
              | batch b us => rw [hl] at h; cases h
        rw [hkv1]
        exact List.mem_cons_self _ _
      · exact List.mem_cons_of_mem _ (ih h)

theorem packLoop_spec {ids : List Int} {m : StageMap F U} {b0 : List (Int × F)}
    {us0 : List (Int × U)} (hnd : ids.Nodup)
    (hin : ∀ i ∈ ids, ∃ f us, alookup i m = some (PipelinePayload.frame f us)) :
    (packLoop ids m b0 us0).1 = Except.ok () ∧
    (∀ i f us, i ∈ ids → alookup i m = some (PipelinePayload.frame f us) →
        alookup i (packLoop ids m b0 us0).2.2.1 = some f) ∧
    (∀ i, i ∉ ids → alookup i (packLoop ids m b0 us0).2.2.1 = alookup i b0) ∧
    (packLoop ids m b0 us0).2.2.2 = us0 ++ taggedUpdates m ids ∧
    ((b0.map Prod.fst).Nodup → ((packLoop ids m b0 us0).2.2.1.map Prod.fst).Nodup) := by
  induction ids generalizing m b0 us0 with
  | nil => simp [packLoop, taggedUpdates]
  | cons j t ih =>
      obtain ⟨fj, usj, hj⟩ := hin j (List.mem_cons_self j t)
      have hstep : packLoop (j :: t) m b0 us0 =
          packLoop t (aerase j m) (aput j fj b0) (us0 ++ usj.map (fun u => (j, u))) := by
        simp [packLoop, hj]
      have hjt : j ∉ t := (List.nodup_cons.mp hnd).1
      have hnd2 : t.Nodup := (List.nodup_cons.mp hnd).2
      have hin2 : ∀ i ∈ t, ∃ f us, alookup i (aerase j m) = some (PipelinePayload.frame f us) := by
        intro i hi
        obtain ⟨f, us, hl⟩ := hin i (List.mem_cons_of_mem _ hi)
        have hne : i ≠ j := fun hc => hjt (hc ▸ hi)
        exact ⟨f, us, by rw [alookup_aerase_ne _ _ _ hne]; exact hl⟩
      obtain ⟨ihok, ihmem, ihout, ihupd, ihnd⟩ := ih hnd2 hin2
      rw [hstep]
      refine ⟨ihok, ?_, ?_, ?_, ?_⟩
      · intro i f us hi hl
        rcases List.mem_cons.mp hi with hij | hit
        · subst hij
          rw [hj] at hl
          injection hl with hl
          cases hl
          rw [ihout i hjt, alookup_aput_self]
        · have hne : i ≠ j := fun hc => hjt (hc ▸ hit)
          exact ihmem i f us hit (by rw [alookup_aerase_ne _ _ _ hne]; exact hl)
      · intro i hi
        simp only [List.mem_cons] at hi
        push_neg at hi
        rw [ihout i hi.2, alookup_aput_ne _ _ _ _ hi.1]
      · rw [ihupd, taggedUpdates_aerase hjt]
        simp [taggedUpdates, hj, List.append_assoc]
      · intro hb0
        exact ihnd (nodup_keys_aput _ _ _ hb0)

theorem unpackDispatchLoop_spec {updates : List (Int × U)} {m : StageMap F U}
    (hin : ∀ kv ∈ updates, ∃ f us, alookup kv.1 m = some (PipelinePayload.frame f us)) :
    (unpackDispatchLoop updates m).1 = Except.ok () ∧
    ∀ i f us0, alookup i m = some (PipelinePayload.frame f us0) →
      alookup i (unpackDispatchLoop updates m).2 =
        some (PipelinePayload.frame f
          (us0 ++ (updates.filter (fun kv => decide (kv.1 = i))).map Prod.snd)) := by
  induction updates generalizing m with
  | nil => simp [unpackDispatchLoop]
  | cons hd t ih =>
      obtain ⟨fid, u⟩ := hd
      obtain ⟨f1, us1, h1⟩ := hin (fid, u) (List.mem_cons_self _ t)
      have hstep : unpackDispatchLoop ((fid, u) :: t) m =
          unpackDispatchLoop t (aput fid (PipelinePayload.frame f1 (us1 ++ [u])) m) := by
        simp [unpackDispatchLoop, h1]
      have hin2 : ∀ kv ∈ t, ∃ f us,
          alookup kv.1 (aput fid (PipelinePayload.frame f1 (us1 ++ [u])) m) =
            some (PipelinePayload.frame f us) := by
        intro kv hkv
        by_cases hc : kv.1 = fid
        · exact ⟨f1, us1 ++ [u], by rw [hc, alookup_aput_self]⟩
        · obtain ⟨f2, us2, h2⟩ := hin kv (List.mem_cons_of_mem _ hkv)
          exact ⟨f2, us2, by rw [alookup_aput_ne _ _ _ _ hc]; exact h2⟩
      obtain ⟨ihok, ihlook⟩ := ih hin2
      rw [hstep]
      refine ⟨ihok, ?_⟩
      intro i f us0 hi
      by_cases hif : i = fid
      · subst hif
        rw [h1] at hi
        injection hi with hi
        cases hi
        rw [ihlook i f1 (us1 ++ [u]) (alookup_aput_self _ _ _)]
        simp [List.filter, List.append_assoc]
      · have hl2 : alookup i (aput fid (PipelinePayload.frame f1 (us1 ++ [u])) m) =
            some (PipelinePayload.frame f us0) := by
          rw [alookup_aput_ne _ _ _ _ hif]
          exact hi
        rw [ihlook i f us0 hl2]
        have : decide (fid = i) = false := by
          simp
          exact fun hc => hif hc.symm
        simp [List.filter, this]

theorem filter_taggedUpdates {m : StageMap F U} {ids : List Int} {i : Int} {f : F}
    {us : List U} (hnd : ids.Nodup) (hi : i ∈ ids)
    (hl : alookup i m = some (PipelinePayload.frame f us)) :
    ((taggedUpdates m ids).filter (fun kv => decide (kv.1 = i))).map Prod.snd = us := by
  induction ids with
  | nil => cases hi
  | cons j t ih =>
      have hjt : j ∉ t := (List.nodup_cons.mp hnd).1
      have hnd2 : t.Nodup := (List.nodup_cons.mp hnd).2
      rcases List.mem_cons.mp hi with hij | hit
      · subst hij
        have hnone : (taggedUpdates m t).filter (fun kv => decide (kv.1 = i)) = [] := by
          rw [List.filter_eq_nil_iff]
          intro kv hkv
          simp only [decide_eq_true_eq]
          intro hc
          exact hjt (hc ▸ taggedUpdates_tag_mem hkv)
        simp only [taggedUpdates, hl, List.filter_append, hnone, List.append_nil]
        rw [List.filter_map]
        have hall : (us.filter ((fun kv => decide (kv.1 = i)) ∘ fun u => (i, u))) = us := by
          apply List.filter_eq_self.mpr
          intro u _
          simp
        rw [hall, List.map_map]
        simp
      · have hne : j ≠ i := fun hc => hjt (hc ▸ hit)
        have hhead : ∀ (l : List U),
            ((l.map (fun u => (j, u))).filter (fun kv => decide (kv.1 = i))) = [] := by
          intro l
          rw [List.filter_eq_nil_iff]
          intro kv hkv
          obtain ⟨u, _, hu⟩ := List.mem_map.mp hkv
          simp only [decide_eq_true_eq]
          intro hc
          exact hne (by rw [← hu] at hc; exact hc)
        cases hlj : alookup j m with
        | none => simpa only [taggedUpdates, hlj, List.nil_append] using ih hnd2 hit
        | some pay =>
            cases pay with
            | frame fj usj =>
                simp only [taggedUpdates, hlj, List.filter_append, hhead usj,
                  List.nil_append]
                exact ih hnd2 hit
            | batch b bus =>
                simpa only [taggedUpdates, hlj, List.nil_append] using ih hnd2 hit

theorem move_and_pack_eval (p : VideoPipeline F U) (s d : String) (ids : List Int)
    (sm dm : StageMap F U)
    (hty_s : alookup s p.stage_types = some StagePayloadType.frame)
    (hty_d : alookup d p.stage_types = some StagePayloadType.batch)
    (hsm : alookup s p.stages = some sm)
    (hdm : alookup d p.stages = some dm)
    (hsd : s ≠ d)
    (hplok : (packLoop ids sm ([] : List (Int × F)) ([] : List (Int × U))).1 = Except.ok ()) :
    p.move_and_pack_frames s d ids =
      (Except.ok (p.id_counter + 1),
       { id_counter := p.id_counter + 1,
         stages := aput d
           (aput (p.id_counter + 1)
             (PipelinePayload.batch (packLoop ids sm [] []).2.2.1 (packLoop ids sm [] []).2.2.2)
             dm)
           (aput s (packLoop ids sm [] []).2.1 p.stages),
         stage_types := p.stage_types }) := by
  unfold move_and_pack_frames
  rw [if_neg (by rw [hty_s, hty_d]; simp)]
  simp only [hsm, hdm, hplok, setStage]
  rw [alookup_aput_ne s d _ p.stages (Ne.symm hsd), hdm]
  rfl

theorem move_and_unpack_eval (q : VideoPipeline F U) (d s1 : String) (bid : Int)
    (B : List (Int × F)) (Us : List (Int × U)) (dm2 s1m2 : StageMap F U)
    (hq_d_ty : alookup d q.stage_types = some StagePayloadType.batch)
    (hq_s1_ty : alookup s1 q.stage_types = some StagePayloadType.frame)
    (hq_d : alookup d q.stages = some dm2)
    (hq_s1 : alookup s1 q.stages = some s1m2)
    (hbid : alookup bid dm2 = some (PipelinePayload.batch B Us))
    (hs1d : s1 ≠ d) :
    q.move_and_unpack_batch d s1 bid =
      ((unpackDispatchLoop Us
          (B.foldl (fun m kv => aput kv.1 (PipelinePayload.frame kv.2 []) m) s1m2)).1,
       setStage (setStage q d (aerase bid dm2)) s1
         (unpackDispatchLoop Us
           (B.foldl (fun m kv => aput kv.1 (PipelinePayload.frame kv.2 []) m) s1m2)).2) := by
  unfold move_and_unpack_batch
  rw [if_neg (by rw [hq_d_ty, hq_s1_ty]; simp)]
  simp only [hq_d, hq_s1, hbid, setStage]
  rw [alookup_aput_ne d s1 _ q.stages hs1d, hq_s1]
  rfl

end VideoPipeline

/-! ## C1: move_as_is is not atomic -/

/-- C1: on the pipeline `c1p3` (Frame stages `a` and `b`, frame 7 stored in
`a` under id 1) the call `move_as_is("a", "b", [1, 2])` returns an error
because id 2 is missing — but it has already removed frame 1 from `a`
without inserting it into `b`, so the erroring call leaves the pipeline
partially mutated and the payload is lost, contradicting the all-or-nothing
clause of the claim. -/
theorem C1_move_as_is_partial_mutation_eval :
    (c1p2.add_frame "a" 7).1 = Except.ok 1 ∧
    c1res.1 = Except.error "Object not found in source stage" ∧
    VideoPipeline.payloadAt c1p3 "a" 1 = some (PipelinePayload.frame 7 []) ∧
    VideoPipeline.payloadAt c1res.2 "a" 1 = none ∧
    VideoPipeline.payloadAt c1res.2 "b" 1 = none ∧
    c1res.2 ≠ c1p3 :=
  ⟨rfl, rfl, rfl, rfl, rfl, by decide⟩

/-! ## C7: strict monotonicity of id_counter -/

/-- C7: every successful `add_frame`, `add_batch` or `move_and_pack_frames`
returns `id_counter + 1` — strictly above every id the pipeline ever
allocated — and stores it back; a failed allocating call leaves the
pipeline unchanged (`move_and_pack_frames` under the reachability invariant
that its Frame-typed source stage holds only frames); and no other
operation ever touches `id_counter`. -/
theorem C7_id_counter_monotonic {F U : Type} (p : VideoPipeline F U)
    (name st src dst : String) (ty : StagePayloadType) (f : F) (b : List (Int × F))
    (u : U) (upd : F → U → Except String F) (id bid fid : Int) (ids : List Int)
    (hWT : srcAllFrames p src = true) :
    (∀ i q, p.add_frame st f = (Except.ok i, q) →
        i = p.id_counter + 1 ∧ q.id_counter = i ∧ p.id_counter < i) ∧
    (∀ i q, p.add_batch st b = (Except.ok i, q) →
        i = p.id_counter + 1 ∧ q.id_counter = i ∧ p.id_counter < i) ∧
    (∀ i q, p.move_and_pack_frames src dst ids = (Except.ok i, q) →
        i = p.id_counter + 1 ∧ q.id_counter = i ∧ p.id_counter < i) ∧
    (∀ e q, p.add_frame st f = (Except.error e, q) → q = p) ∧
    (∀ e q, p.add_batch st b = (Except.error e, q) → q = p) ∧
    (∀ e q, p.move_and_pack_frames src dst ids = (Except.error e, q) → q = p) ∧
    (p.add_stage name ty).2.id_counter = p.id_counter ∧
    (p.del st id).2.id_counter = p.id_counter ∧
    (p.add_frame_update st fid u).2.id_counter = p.id_counter ∧
    (p.add_batched_frame_update st bid fid u).2.id_counter = p.id_counter ∧
    (VideoPipeline.apply_updates upd p st id).2.id_counter = p.id_counter ∧
    (p.move_as_is src dst ids).2.id_counter = p.id_counter ∧
    (p.move_and_unpack_batch src dst bid).2.id_counter = p.id_counter := by
  refine ⟨?_, ?_, ?_, ?_, ?_, ?_, ?_, ?_, ?_, ?_, ?_, ?_, ?_⟩
  · intro i q h
    obtain ⟨h1, h2⟩ := VideoPipeline.add_frame_ok h
    exact ⟨h1, h1 ▸ h2, by omega⟩
  · intro i q h
    obtain ⟨h1, h2⟩ := VideoPipeline.add_batch_ok h
    exact ⟨h1, h1 ▸ h2, by omega⟩
  · intro i q h
    obtain ⟨h1, h2⟩ := VideoPipeline.move_and_pack_ok h
    exact ⟨h1, h1 ▸ h2, by omega⟩
  · intro e q h
    exact VideoPipeline.add_frame_err h
  · intro e q h
    exact VideoPipeline.add_batch_err h
  · intro e q h
    exact VideoPipeline.move_and_pack_err hWT h
  · exact VideoPipeline.add_stage_id_counter p name ty
  · exact VideoPipeline.del_id_counter p st id
  · exact VideoPipeline.add_frame_update_id_counter p st fid u
  · exact VideoPipeline.add_batched_frame_update_id_counter p st bid fid u
  · exact VideoPipeline.apply_updates_id_counter upd p st id
  · exact VideoPipeline.move_as_is_id_counter p src dst ids
  · exact VideoPipeline.move_and_unpack_id_counter p src dst bid

/-- Witness for C7 at the concrete pipeline `c7p`: packing frame 1 from
stage `in` into stage `out` allocates id 2 = id_counter + 1 and stores it
back. -/
theorem C7_id_counter_monotonic_witness :
    (2 : Int) = c7p.id_counter + 1 ∧
    (c7p.move_and_pack_frames "in" "out" [1]).2.id_counter = 2 ∧
    c7p.id_counter < 2 :=
  (C7_id_counter_monotonic c7p "n" "in" "in" "out" StagePayloadType.frame 9 [] 0 updW
      1 1 1 [1] (by decide)).2.2.1 2 (c7p.move_and_pack_frames "in" "out" [1]).2 rfl

/-! ## C5: pack then unpack restores frames and their pending updates -/

/-- C5: starting from distinct frame ids `ids` all present in Frame stage `s`
(with arbitrary pending updates), a `move_and_pack_frames(s, d, ids)` into
Batch stage `d` succeeds returning `batch_id = id_counter + 1`, and a
subsequent `move_and_unpack_batch(d, s1, batch_id)` into Frame stage `s1`
succeeds and leaves every original frame in `s1` under its original id
with exactly its original pending updates, in order. -/
theorem C5_pack_unpack_roundtrip {F U : Type} (p : VideoPipeline F U)
    (s d s1 : String) (ids : List Int) (sm dm : StageMap F U)
    (hty_s : alookup s p.stage_types = some StagePayloadType.frame)
    (hty_d : alookup d p.stage_types = some StagePayloadType.batch)
    (hty_s1 : alookup s1 p.stage_types = some StagePayloadType.frame)
    (hsm : alookup s p.stages = some sm)
    (hdm : alookup d p.stages = some dm)
    (hs1m : (alookup s1 p.stages).isSome = true)
    (hnd : ids.Nodup)
    (hin : ∀ i ∈ ids, ∃ f us, alookup i sm = some (PipelinePayload.frame f us)) :
    (p.move_and_pack_frames s d ids).1 = Except.ok (p.id_counter + 1) ∧
    ((p.move_and_pack_frames s d ids).2.move_and_unpack_batch d s1 (p.id_counter + 1)).1 =
      Except.ok () ∧
    ∀ i f us, i ∈ ids → alookup i sm = some (PipelinePayload.frame f us) →
      VideoPipeline.payloadAt
        ((p.move_and_pack_frames s d ids).2.move_and_unpack_batch d s1 (p.id_counter + 1)).2
        s1 i = some (PipelinePayload.frame f us) := by
  obtain ⟨plok, plmem, plout, plupd, plnd⟩ :=
    @VideoPipeline.packLoop_spec F U ids sm [] [] hnd hin
  have hsd : s ≠ d := by
    intro hc
    rw [hc] at hty_s
    rw [hty_s] at hty_d
    simp at hty_d
  have hs1d : s1 ≠ d := by
    intro hc
    rw [hc] at hty_s1
    rw [hty_s1] at hty_d
    simp at hty_d
  have hUs : (VideoPipeline.packLoop ids sm ([] : List (Int × F))
      ([] : List (Int × U))).2.2.2 = VideoPipeline.taggedUpdates sm ids := by
    simpa using plupd
  have hBnd : (((VideoPipeline.packLoop ids sm ([] : List (Int × F))
      ([] : List (Int × U))).2.2.1).map Prod.fst).Nodup := plnd (by simp)
  have hpack := VideoPipeline.move_and_pack_eval p s d ids sm dm hty_s hty_d hsm hdm hsd plok
  -- the destination map of the unpack call in stage s1, before the frames land
  obtain ⟨s1m2, hs1m2⟩ : ∃ mm,
      alookup s1 (aput s (VideoPipeline.packLoop ids sm ([] : List (Int × F))
        ([] : List (Int × U))).2.1 p.stages) = some mm := by
    by_cases hss : s1 = s
    · exact ⟨_, by rw [hss, alookup_aput_self]⟩
    · rw [alookup_aput_ne _ _ _ _ hss]
      exact Option.isSome_iff_exists.mp hs1m
  have hunp := VideoPipeline.move_and_unpack_eval
    (q := (p.move_and_pack_frames s d ids).2) d s1 (p.id_counter + 1)
    (VideoPipeline.packLoop ids sm [] []).2.2.1
    (VideoPipeline.packLoop ids sm [] []).2.2.2
    (aput (p.id_counter + 1)
      (PipelinePayload.batch (VideoPipeline.packLoop ids sm [] []).2.2.1
        (VideoPipeline.packLoop ids sm [] []).2.2.2) dm)
    s1m2
    (by rw [hpack]; exact hty_d)
    (by rw [hpack]; exact hty_s1)
    (by rw [hpack]; exact alookup_aput_self _ _ _)
    (by rw [hpack]
        show alookup s1 (aput d _ (aput s _ p.stages)) = some s1m2
        rw [alookup_aput_ne _ _ _ _ hs1d]
        exact hs1m2)
    (alookup_aput_self _ _ _)
    hs1d
  -- every tagged update of the batch targets a frame present after insertion
  have hfold : ∀ (i : Int) (f : F),
      alookup i (VideoPipeline.packLoop ids sm ([] : List (Int × F))
        ([] : List (Int × U))).2.2.1 = some f →
      alookup i ((VideoPipeline.packLoop ids sm [] []).2.2.1.foldl
        (fun m kv => aput kv.1 (PipelinePayload.frame kv.2 []) m) s1m2) =
        some (PipelinePayload.frame f []) := by
    intro i f hif
    rw [alookup_foldl_aput (fun f => PipelinePayload.frame f ([] : List U)) _ _ _ hBnd]
    rw [hif]
  obtain ⟨hdok, hdlook⟩ := @VideoPipeline.unpackDispatchLoop_spec F U
    (VideoPipeline.packLoop ids sm [] []).2.2.2
    ((VideoPipeline.packLoop ids sm [] []).2.2.1.foldl
      (fun m kv => aput kv.1 (PipelinePayload.frame kv.2 []) m) s1m2)
    (by
      intro kv hkv
      rw [hUs] at hkv
      have hk1 := VideoPipeline.taggedUpdates_tag_mem hkv
      obtain ⟨f, us, hl⟩ := hin kv.1 hk1
      exact ⟨f, [], hfold kv.1 f (plmem kv.1 f us hk1 hl)⟩)
  refine ⟨by rw [hpack], by rw [hunp]; exact hdok, ?_⟩
  intro i f us hi hl
  rw [hunp]
  unfold VideoPipeline.payloadAt VideoPipeline.setStage
  simp only [alookup_aput_self, Option.bind_eq_bind, Option.some_bind]
  rw [hdlook i f [] (hfold i f (plmem i f us hi hl))]
  rw [hUs, VideoPipeline.filter_taggedUpdates hnd hi hl]
  simp

/-- Witness for C5 at the concrete pipeline `c5p`: after packing frames 1
and 2 from `in` into `mid` and unpacking into `out`, frame 1 reappears in
`out` under id 1 with its pending update list [100] intact. -/
theorem C5_pack_unpack_roundtrip_witness :
    VideoPipeline.payloadAt
      ((c5p.move_and_pack_frames "in" "mid" [1, 2]).2.move_and_unpack_batch "mid" "out"
        (c5p.id_counter + 1)).2 "out" 1 = some (PipelinePayload.frame 10 [100]) :=
  (C5_pack_unpack_roundtrip c5p "in" "mid" "out" [1, 2]
      [(1, PipelinePayload.frame 10 [100]), (2, PipelinePayload.frame 20 [])] []
      rfl rfl rfl rfl rfl rfl (by decide)
      (by
        intro i hi
        rcases List.mem_cons.mp hi with h1 | hi2
        · exact ⟨10, [100], by rw [h1]; rfl⟩
        · rcases List.mem_cons.mp hi2 with h2 | h3
          · exact ⟨20, [], by rw [h2]; rfl⟩
          · cases h3)).2.2 1 10 [100] (by decide) rfl

/-- C10: a pending batch update whose frame id is absent from the batch is
silently discarded — removing it from the pending list changes nothing,
in particular it causes no error — and a successful `apply_updates` call
leaves the payload with an empty pending list. -/
theorem C10_apply_updates_batch {F U : Type} (upd : F → U → Except String F)
    (p : VideoPipeline F U) (st : String) (id : Int)
    (b : List (Int × F)) (pend : List (Int × U))
    (hpay : VideoPipeline.payloadAt p st id = some (PipelinePayload.batch b pend)) :
    (∀ (b0 : List (Int × F)) (pend1 pend2 : List (Int × U)) (fid : Int) (u : U),
        alookup fid b0 = none →
        VideoPipeline.drainBatchUpdates upd b0 (pend1 ++ (fid, u) :: pend2) =
          VideoPipeline.drainBatchUpdates upd b0 (pend1 ++ pend2)) ∧
    (∀ q, VideoPipeline.apply_updates upd p st id = (Except.ok (), q) →
        ∃ b1, VideoPipeline.payloadAt q st id = some (PipelinePayload.batch b1 [])) := by
  constructor
  · intro b0 pend1 pend2 fid u habs
    induction pend1 generalizing b0 with
    | nil => simp [VideoPipeline.drainBatchUpdates, habs]
    | cons hd t ih =>
        obtain ⟨fid1, u1⟩ := hd
        cases hl : alookup fid1 b0 with
        | none => simp [VideoPipeline.drainBatchUpdates, hl, ih b0 habs]
        | some f =>
            cases hu : upd f u1 with
            | ok f1 =>
                have hne : fid1 ≠ fid := by
                  intro hc
                  rw [hc, habs] at hl
                  exact Option.noConfusion hl
                have habs1 : alookup fid (aput fid1 f1 b0) = none := by
                  rw [alookup_aput_ne _ _ _ _ (Ne.symm hne)]
                  exact habs
                simp [VideoPipeline.drainBatchUpdates, hl, hu, ih _ habs1]
            | error e => simp [VideoPipeline.drainBatchUpdates, hl, hu]
  · intro q h
    unfold VideoPipeline.payloadAt at hpay
    cases hms : alookup st p.stages with
    | none => rw [hms] at hpay; simp at hpay
    | some m =>
        rw [hms] at hpay
        have hpay2 : alookup id m = some (PipelinePayload.batch b pend) := hpay
        unfold VideoPipeline.apply_updates at h
        simp only [hms, hpay2] at h
        simp only [Prod.mk.injEq] at h
        refine ⟨(VideoPipeline.drainBatchUpdates upd b pend).2, ?_⟩
        rw [← h.2]
        unfold VideoPipeline.payloadAt VideoPipeline.setStage
        simp [alookup_aput_self]

/-- Witness for C10 at the concrete pipeline `c10p`: its batch payload has a
pending update for the absent frame 9, yet `apply_updates` succeeds and
empties the pending list. -/
theorem C10_apply_updates_batch_witness :
    ∃ b1, VideoPipeline.payloadAt (VideoPipeline.apply_updates updW c10p "s" 1).2 "s" 1 =
      some (PipelinePayload.batch b1 []) :=
  (C10_apply_updates_batch updW c10p "s" 1 [(1, 5)] [(1, 2), (9, 3)] rfl).2
    (VideoPipeline.apply_updates updW c10p "s" 1).2 rfl

/-! ## C2: the IoSelf metric dispatch ignores the query's other box -/

/-- C2: for the detection box A = (1,2,10,20) and query box B = (1,2,2,4),
the BoxMetric IoSelf arm computes `ios(A, A)` = 1 instead of the claimed
|A∩B| / |A| = 8/200 = 1/25; and for a track box T = (100,200,10,20) with
`other` = T, the TrackBoxMetric IoSelf arm computes `ios(T, A)` = 0 (T and
A are disjoint) instead of the claimed |T∩T| / |T| = 1.  In both arms the
code never consults `other` for the IoSelf kind. -/
theorem C2_ioself_ignores_other_eval :
    boxMetricCode ⟨⟨1, 2, 10, 20, none⟩, some ⟨100, 200, 10, 20, none⟩⟩
        ⟨1, 2, 2, 4, none⟩ BBoxMetricType.IoSelf = 1 ∧
    ioSelfSpec ⟨1, 2, 10, 20, none⟩ ⟨1, 2, 2, 4, none⟩ = 1 / 25 ∧
    (1 : Rat) ≠ 1 / 25 ∧
    trackBoxMetricCode ⟨100, 200, 10, 20, none⟩
        ⟨⟨1, 2, 10, 20, none⟩, some ⟨100, 200, 10, 20, none⟩⟩
        ⟨100, 200, 10, 20, none⟩ BBoxMetricType.IoSelf = 0 ∧
    ioSelfSpec ⟨100, 200, 10, 20, none⟩ ⟨100, 200, 10, 20, none⟩ = 1 ∧
    (0 : Rat) ≠ 1 := by
  refine ⟨?_, ?_, by norm_num, ?_, ?_, by norm_num⟩ <;>
    norm_num [boxMetricCode, trackBoxMetricCode, ioSelfSpec, RBBoxQ.ios, RBBoxQ.area,
      RBBoxQ.interArea, min_def, max_def]

/-! ## C4: which calls panic on an inactive parameter store -/

/-- C4 counterexample: on an inactive store, `set` does not panic — it still
enqueues its operation — refuting the claim that every public mutating
call (set included) panics once the worker is inactive. -/
theorem C4_set_no_panic_counterexample :
    EtcdParameterStorage.set ⟨false, [], []⟩ "k" [1] =
      some ⟨false, [], [EtcdOperation.set "k" [1] false]⟩ ∧
    EtcdParameterStorage.set ⟨false, [], []⟩ "k" [1] ≠ none :=
  ⟨rfl, by decide⟩

/-- C4 amended: when the worker is inactive, `order_data_update` panics (as
do `stop` and the readers, `get_data` shown here), but `set` performs no
activity check: it always succeeds and appends its Set operation. -/
theorem C4_inactive_calls_amended (s : EtcdParameterStorage) (spec key key2 : String)
    (v : List Nat) (h : s.active = false) :
    EtcdParameterStorage.order_data_update s spec = none ∧
    EtcdParameterStorage.stop s = none ∧
    EtcdParameterStorage.get_data s key2 = none ∧
    EtcdParameterStorage.set s key v =
      some { s with ops := s.ops ++ [EtcdOperation.set key v false] } := by
  refine ⟨?_, ?_, ?_, rfl⟩ <;>
    simp [EtcdParameterStorage.order_data_update, EtcdParameterStorage.stop,
      EtcdParameterStorage.get_data, h]

/-- Witness for C4 at a concrete inactive store. -/
theorem C4_inactive_calls_amended_witness :
    EtcdParameterStorage.order_data_update ⟨false, [], []⟩ "k" = none ∧
    EtcdParameterStorage.stop ⟨false, [], []⟩ = none ∧
    EtcdParameterStorage.get_data ⟨false, [], []⟩ "k" = none ∧
    EtcdParameterStorage.set ⟨false, [], []⟩ "k" [2] =
      some { active := false, parameters := [],
             ops := [] ++ [EtcdOperation.set "k" [2] false] } :=
  C4_inactive_calls_amended ⟨false, [], []⟩ "k" "k" "k" [2] rfl

/-! ## C8: filter and partition -/

/-- C8 counterexample: for the predicate of the query object.id == 1 (objects
represented by their ids) and the input [0, 1], partition returns
([1], [0]); the concatenation [1, 0] of the matching and non-matching
lists differs from the input list [0, 1]. -/
theorem C8_partition_concat_counterexample :
    partitionObjs (fun o => o == (1 : Int)) [0, 1] = ([1], [0]) ∧
    (partitionObjs (fun o => o == (1 : Int)) [0, 1]).1 ++
      (partitionObjs (fun o => o == (1 : Int)) [0, 1]).2 ≠ [0, 1] :=
  ⟨rfl, by decide⟩

/-- C8 amended: `filter` returns exactly the matching objects in input order;
`partition` returns the matching and the non-matching objects, each in
input order; and the concatenation of the two partition halves is a
permutation (not in general an ordered copy) of the input list. -/
theorem C8_filter_partition_amended {α : Type} (q : α → Bool) (objs : List α) :
    filterObjs q objs = objs.filter q ∧
    (partitionObjs q objs).1 = objs.filter q ∧
    (partitionObjs q objs).2 = objs.filter (fun o => !(q o)) ∧
    ((partitionObjs q objs).1 ++ (partitionObjs q objs).2).Perm objs := by
  have hf : filterObjs q objs = objs.filter q := by
    induction objs with
    | nil => rfl
    | cons a t ih =>
        by_cases hq : q a <;>
          simp [filterObjs, List.filterMap_cons, hq, List.filter_cons, ih,
            filterObjs] at ih ⊢ <;> exact ih
  have hp : ∀ (l : List α) (acc1 acc2 : List α),
      l.foldl (fun acc o => if q o then (acc.1 ++ [o], acc.2) else (acc.1, acc.2 ++ [o]))
        (acc1, acc2) =
      (acc1 ++ l.filter q, acc2 ++ l.filter (fun o => !(q o))) := by
    intro l
    induction l with
    | nil => intro acc1 acc2; simp
    | cons a t ih =>
        intro acc1 acc2
        by_cases hq : q a <;>
          simp [List.foldl_cons, hq, ih, List.filter_cons, List.append_assoc]
  have hp0 := hp objs [] []
  refine ⟨hf, ?_, ?_, ?_⟩
  · rw [partitionObjs, hp0]
    simp
  · rw [partitionObjs, hp0]
    simp
  · rw [partitionObjs, hp0]
    simpa using List.filter_append_perm (fun o => q o) objs

/-! ## C9: MatchQuery JSON round-trip -/

theorem f64_roundtrip {x : F64} (h : x.isFinite = true) :
    f64FromJson (f64ToJson x) = some x := by
  cases x <;> simp_all [F64.isFinite, f64ToJson, f64FromJson]

theorem floatList_roundtrip {v : List F64} (h : v.all F64.isFinite = true) :
    floatListFromJson (v.map f64ToJson) = some v := by
  induction v with
  | nil => rfl
  | cons a t ih =>
      simp only [List.all_cons, Bool.and_eq_true] at h
      simp [floatListFromJson, f64_roundtrip h.1, ih h.2]

theorem floatExprRoundtrip {e : FloatExpression} (h : e.finiteFloats = true) :
    FloatExpression.fromJson e.toJson = some e := by
  cases e with
  | Between a b =>
      simp only [FloatExpression.finiteFloats, Bool.and_eq_true] at h
      simp [FloatExpression.toJson, FloatExpression.fromJson, f64_roundtrip h.1,
        f64_roundtrip h.2]
  | OneOf v =>
      simp only [FloatExpression.finiteFloats] at h
      simp [FloatExpression.toJson, FloatExpression.fromJson, floatList_roundtrip h]
  | _ =>
      simp only [FloatExpression.finiteFloats] at h
      simp [FloatExpression.toJson, FloatExpression.fromJson, f64_roundtrip h]

theorem intList_roundtrip (v : List Int) :
    intListFromJson (v.map JVal.int) = some v := by
  induction v with
  | nil => rfl
  | cons a t ih => simp [intListFromJson, intFromJson, ih]

theorem intExprRoundtrip (e : IntExpression) :
    IntExpression.fromJson e.toJson = some e := by
  cases e <;>
    simp [IntExpression.toJson, IntExpression.fromJson, intFromJson, intList_roundtrip]

theorem strList_roundtrip (v : List String) :
    strListFromJson (v.map JVal.str) = some v := by
  induction v with
  | nil => rfl
  | cons a t ih => simp [strListFromJson, strFromJson, ih]

theorem strExprRoundtrip (e : StringExpression) :
    StringExpression.fromJson e.toJson = some e := by
  cases e <;>
    simp [StringExpression.toJson, StringExpression.fromJson, strFromJson, strList_roundtrip]

theorem metricTypeRoundtrip (m : BBoxMetricType) :
    BBoxMetricType.fromJson m.toJson = some m := by
  cases m <;> simp [BBoxMetricType.toJson, BBoxMetricType.fromJson]

theorem optF64_roundtrip {x : Option F64} (h : optF64IsFinite x = true) :
    optF64FromJson (optF64ToJson x) = some x := by
  cases x with
  | none => rfl
  | some y =>
      simp only [optF64IsFinite] at h
      cases y <;> simp_all [F64.isFinite, optF64ToJson, optF64FromJson, f64ToJson, f64FromJson]

theorem boxTuple_roundtrip {t : BoxTuple} (h : t.finiteFloats = true) :
    boxTupleFromJson (boxTupleToJson t) = some t := by
  obtain ⟨a, b, c, d, e⟩ := t
  simp only [BoxTuple.finiteFloats, Bool.and_eq_true] at h
  simp [boxTupleToJson, boxTupleFromJson, f64_roundtrip h.1.1.1.1,
    f64_roundtrip h.1.1.1.2, f64_roundtrip h.1.1.2, f64_roundtrip h.1.2,
    optF64_roundtrip h.2]

theorem fromJson_str (tag : String) :
    MatchQuery.fromJson (JVal.str tag) = mqFromTag0 tag := by
  rw [MatchQuery.fromJson.eq_def]

theorem listFromJson_nil : MatchQuery.listFromJson [] = some [] := by
  rw [MatchQuery.listFromJson.eq_def]

theorem listFromJson_cons (j : JVal) (t : List JVal) :
    MatchQuery.listFromJson (j :: t) =
      match MatchQuery.fromJson j, MatchQuery.listFromJson t with
      | some q, some qs => some (q :: qs)
      | _, _ => none := by
  rw [MatchQuery.listFromJson.eq_def]

theorem fromJson_obj1 (tag : String) (v : JVal) :
    MatchQuery.fromJson (JVal.obj [(tag, v)]) =
      (if tag = "not" then (MatchQuery.fromJson v).map MatchQuery.Not
      else if tag = "and" then (MatchQuery.arrFromJson v).map MatchQuery.And
      else if tag = "or" then (MatchQuery.arrFromJson v).map MatchQuery.Or
      else if tag = "with_children" then MatchQuery.wcFromJson v
      else mqFromTag1 tag v) := by
  rw [MatchQuery.fromJson.eq_def]

theorem arrFromJson_arr (l : List JVal) :
    MatchQuery.arrFromJson (JVal.arr l) = MatchQuery.listFromJson l := by
  rw [MatchQuery.arrFromJson.eq_def]

theorem wcFromJson_arr2 (jq je : JVal) :
    MatchQuery.wcFromJson (JVal.arr [jq, je]) =
      match MatchQuery.fromJson jq, IntExpression.fromJson je with
      | some q, some e => some (MatchQuery.WithChildren q e)
      | _, _ => none := by
  rw [MatchQuery.wcFromJson.eq_def]

theorem MatchQuery.listFiniteFloats_mem {v : List MatchQuery}
    (h : MatchQuery.listFiniteFloats v = true) :
    ∀ q ∈ v, q.finiteFloats = true := by
  induction v with
  | nil => intro q hq; cases hq
  | cons a t ih =>
      simp only [MatchQuery.listFiniteFloats, Bool.and_eq_true] at h
      intro q hq
      rcases List.mem_cons.mp hq with h1 | h2
      · exact h1 ▸ h.1
      · exact ih h.2 q h2

theorem MatchQuery.listFromJson_toJson {v : List MatchQuery}
    (h : ∀ q ∈ v, MatchQuery.fromJson q.toJson = some q) :
    MatchQuery.listFromJson (MatchQuery.listToJson v) = some v := by
  induction v with
  | nil => simp [MatchQuery.listToJson, listFromJson_nil]
  | cons a t ih =>
      simp [MatchQuery.listToJson, listFromJson_cons,
        h a (List.mem_cons_self a t), ih (fun q hq => h q (List.mem_cons_of_mem a hq))]

theorem MatchQuery.roundtrip_aux : ∀ (n : Nat) (q : MatchQuery), sizeOf q ≤ n →
    q.finiteFloats = true → MatchQuery.fromJson q.toJson = some q := by
  intro n
  induction n with
  | zero =>
      intro q hsz
      exfalso
      have h1 : 0 < sizeOf q := by cases q <;> simp_arith
      omega
  | succ n ih =>
      intro q hsz hfin
      have ihq : ∀ q2 : MatchQuery, sizeOf q2 < sizeOf q → q2.finiteFloats = true →
          MatchQuery.fromJson q2.toJson = some q2 := fun q2 h2 hf => ih q2 (by omega) hf
      cases q
      case Not q2 =>
        have hf2 : q2.finiteFloats = true := by
          simpa [MatchQuery.finiteFloats] using hfin
        have hrt := ihq q2 (by simp_arith) hf2
        simp [MatchQuery.toJson, fromJson_obj1, hrt]
      case WithChildren q2 e =>
        have hf2 : q2.finiteFloats = true := by
          simpa [MatchQuery.finiteFloats] using hfin
        have hrt := ihq q2 (by simp_arith) hf2
        simp [MatchQuery.toJson, fromJson_obj1, wcFromJson_arr2, hrt,
          intExprRoundtrip]
      case And v =>
        have hf2 : MatchQuery.listFiniteFloats v = true := by
          simpa [MatchQuery.finiteFloats] using hfin
        have helem : ∀ q2 ∈ v, MatchQuery.fromJson q2.toJson = some q2 := by
          intro q2 h2
          have hlt := List.sizeOf_lt_of_mem h2
          refine ihq q2 ?_ (MatchQuery.listFiniteFloats_mem hf2 q2 h2)
          have : sizeOf (MatchQuery.And v) = 1 + sizeOf v := by simp_arith
          omega
        simp [MatchQuery.toJson, fromJson_obj1, arrFromJson_arr,
          MatchQuery.listFromJson_toJson helem]
      case Or v =>
        have hf2 : MatchQuery.listFiniteFloats v = true := by
          simpa [MatchQuery.finiteFloats] using hfin
        have helem : ∀ q2 ∈ v, MatchQuery.fromJson q2.toJson = some q2 := by
          intro q2 h2
          have hlt := List.sizeOf_lt_of_mem h2
          refine ihq q2 ?_ (MatchQuery.listFiniteFloats_mem hf2 q2 h2)
          have : sizeOf (MatchQuery.Or v) = 1 + sizeOf v := by simp_arith
          omega
        simp [MatchQuery.toJson, fromJson_obj1, arrFromJson_arr,
          MatchQuery.listFromJson_toJson helem]
      all_goals
        simp only [MatchQuery.finiteFloats, Bool.and_eq_true] at hfin
      all_goals
        solve
        | simp [MatchQuery.toJson, fromJson_str, mqFromTag0]
        | simp [MatchQuery.toJson, fromJson_obj1, mqFromTag1, strFromJson]
        | simp [MatchQuery.toJson, fromJson_obj1, mqFromTag1, intExprRoundtrip]
        | simp [MatchQuery.toJson, fromJson_obj1, mqFromTag1, strExprRoundtrip]
        | simp [MatchQuery.toJson, fromJson_obj1, mqFromTag1, strFromJson,
            floatExprRoundtrip hfin]
        | simp [MatchQuery.toJson, fromJson_obj1, mqFromTag1, boxTuple_roundtrip hfin.1,
            metricTypeRoundtrip, floatExprRoundtrip hfin.2]

/-- C9 (amended): for every MatchQuery whose float leaves are all finite,
from_json(to_json(q)) succeeds and returns a structurally equal query.
(The restriction is forced by the NaN counterexample: serde_json writes a
non-finite f64 as null, which does not deserialize back.) -/
theorem C9_roundtrip_finite (q : MatchQuery) (h : q.finiteFloats = true) :
    MatchQuery.fromJson (MatchQuery.toJson q) = some q :=
  MatchQuery.roundtrip_aux (sizeOf q) q le_rfl h

/-- C9 counterexample: for q = Confidence(eq NaN), to_json serializes the
NaN as null and from_json rejects it, so from_json(to_json(q)) does not
succeed, refuting the claim for every MatchQuery value. -/
theorem C9_nan_roundtrip_counterexample :
    MatchQuery.fromJson (MatchQuery.toJson
      (MatchQuery.Confidence (FloatExpression.EQ F64.nan))) = none := by
  simp [MatchQuery.toJson, FloatExpression.toJson, f64ToJson, fromJson_obj1, mqFromTag1,
    FloatExpression.fromJson, f64FromJson]

/-- Witness for C9 at the query of the spec's scenario 3:
And [Id eq 1, Creator one_of [test, test2], Confidence gt 0.5]. -/
theorem C9_roundtrip_finite_witness :
    MatchQuery.fromJson (MatchQuery.toJson (MatchQuery.And
      [MatchQuery.Id (IntExpression.EQ 1),
       MatchQuery.Creator (StringExpression.OneOf ["test", "test2"]),
       MatchQuery.Confidence (FloatExpression.GT (F64.finite (1 / 2)))])) =
      some (MatchQuery.And
      [MatchQuery.Id (IntExpression.EQ 1),
       MatchQuery.Creator (StringExpression.OneOf ["test", "test2"]),
       MatchQuery.Confidence (FloatExpression.GT (F64.finite (1 / 2)))]) :=
  C9_roundtrip_finite _ (by
    simp [MatchQuery.finiteFloats, MatchQuery.listFiniteFloats,
      FloatExpression.finiteFloats, F64.isFinite])

end Savant
